import Mathlib

/-!
Verification development for the laundry-machine telemetry engine.

The repository contains two revisions of the same MQTT ingestion module:

* `src/utils/mqttClient.js` — six machines, per-channel-class thresholds
  (washers 10 W / 5 W, dryer channels 5 and 6 at 100 W / 50 W), inline
  start/stop debounce logic inside `updateMachineStatus`.
* `src/unnamed/part_005` — eight virtual machines; physical dryer channels
  5 and 6 each map to a pair of virtual dryers, disambiguated by measured
  current (threshold 3.5 A); shared debounce logic lives in
  `_setMachineRunning`, with `updateDryerPair` handling the pairs.

They are embedded below as namespaces `MqttClient` and `MqttClientPairs`
over a common state type.  Modelling conventions:

* JS numbers carrying power/current are rationals (`ℚ`); a possibly
  `undefined` JS value is an `Option`.  JS `a || b` field extraction
  (which skips a `0` value because `0` is falsy) is `jsOrQ` / `jsOrN`.
* Timestamps are integer milliseconds.  `new Date()` is modelled by
  threading an explicit `now : Int` parameter; `_today` maps a timestamp
  to its UTC day number (the source's `toISOString().slice(0, 10)` date
  string, under the UTC clock the source effectively uses).
* `setTimeout` appends a `Timer` record to an arena of live timers and
  returns its fresh handle; `clearTimeout h` removes the timer with
  handle `h`; a timer callback is `fireTimer`, run only for a timer that
  is still in the arena (a cancelled JS timer never runs).
* The stats file is an association list keyed by day and channel.
  Persistence is a `saved` shadow copy plus a `diskOk` flag: a failing
  `fs.writeFileSync` is caught and logged by the source, modelled by
  `_saveStats` leaving `saved` unchanged when `diskOk = false`.
* Event emission (`this.emit`) appends to an `events` log in the state.
-/

/-- A machine record, one per virtual unit, as stored in `this.machines`.
`power` is an `Option` because the JS field can be assigned `undefined`
by a malformed channels-array entry. -/
structure Machine where
  id : Nat
  name : String
  power : Option ℚ
  isRunning : Bool
  startedAt : Option Int
  lastStartedAt : Option Int
  deriving DecidableEq

/-- One per-day, per-channel stats bucket `\x7bstarts, runtimeMs\x7d`. -/
structure Bucket where
  starts : Nat
  runtimeMs : Int
  deriving DecidableEq

/-- The per-channel buckets of one day, in object-key insertion order. -/
abbrev DayStats := List (Nat × Bucket)

/-- The whole stats object: day number (modelling the ISO date-string
key) to that day's buckets, in insertion order. -/
abbrev Stats := List (Int × DayStats)

/-- A scheduled stop-debounce timer: its `setTimeout` handle, the channel
it will stop, the `startedAt` captured when it was armed, and its due
time. -/
structure Timer where
  tid : Nat
  chan : Nat
  capturedStartedAt : Option Int
  fireAt : Int
  deriving DecidableEq

/-- An emitted engine event. -/
inductive Event where
  | machineStarted (id : Nat)
  | machineStopped (id : Nat)
  deriving DecidableEq

/-- The full mutable state of one `MqttClient` instance, shared by both
revisions of the module. -/
structure EngineState where
  machines : Nat → Option Machine
  stopTimers : Nat → Option Nat
  liveTimers : List Timer
  nextTid : Nat
  stats : Stats
  saved : Option Stats
  diskOk : Bool
  events : List Event

/-- JS date-string of a timestamp, as a UTC day number: models
`new Date().toISOString().slice(0, 10)`. -/
def _today (now : Int) : Int := now.fdiv 86400000

/-- Overwrite the machine stored at a channel. -/
def setMachine (s : EngineState) (c : Nat) (m : Machine) : EngineState :=
  { s with machines := fun c' => if c' = c then some m else s.machines c' }

/-- Models `if (this.stopTimers[c]) \x7b clearTimeout(...); this.stopTimers[c] = null; \x7d`. -/
def clearStopTimer (s : EngineState) (c : Nat) : EngineState :=
  match s.stopTimers c with
  | some tid =>
      { s with liveTimers := s.liveTimers.filter (fun t => t.tid ≠ tid),
               stopTimers := fun c' => if c' = c then none else s.stopTimers c' }
  | none => s

/-- Models `this.stopTimers[c] = setTimeout(callback, 60 * 1000)` with the
callback's captured `startedAt`. -/
def armStopTimer (s : EngineState) (c : Nat) (startedAt : Option Int) (now : Int) :
    EngineState :=
  { s with
      liveTimers := s.liveTimers ++ [⟨s.nextTid, c, startedAt, now + 60000⟩],
      stopTimers := fun c' => if c' = c then some s.nextTid else s.stopTimers c',
      nextTid := s.nextTid + 1 }

/-- Models `fs.writeFileSync` inside the `try/catch` of `_saveStats`: on
success the persisted copy becomes the in-memory stats; on failure the
error is logged and swallowed, leaving everything else unchanged. -/
def _saveStats (s : EngineState) : EngineState :=
  if s.diskOk then { s with saved := some s.stats } else s

/-- Association-list key lookup (object property access). -/
def lookupKey {α β : Type} [DecidableEq α] : List (α × β) → α → Option β
  | [], _ => none
  | (k, v) :: rest, a => if k = a then some v else lookupKey rest a

/-- Day lookup in the stats object (absent day reads as empty). -/
def getDay (st : Stats) (d : Int) : DayStats := (lookupKey st d).getD []

/-- Bucket lookup (absent bucket reads as `\x7bstarts: 0, runtimeMs: 0\x7d`,
matching `_ensureDayEntry`'s initialisation). -/
def getBucket (st : Stats) (d : Int) (c : Nat) : Bucket :=
  (lookupKey (getDay st d) c).getD ⟨0, 0⟩

/-- Replace-or-append for a channel key inside one day. -/
def setBucketIn : DayStats → Nat → Bucket → DayStats
  | [], c, b => [(c, b)]
  | (c', b') :: rest, c, b =>
      if c' = c then (c, b) :: rest else (c', b') :: setBucketIn rest c b

/-- Replace-or-append for a day key in the stats object. -/
def setDay : Stats → Int → DayStats → Stats
  | [], d, ds => [(d, ds)]
  | (d', ds') :: rest, d, ds =>
      if d' = d then (d, ds) :: rest else (d', ds') :: setDay rest d ds

/-- Models `_ensureDayEntry(date, c)` followed by `stats[date][c].starts++`. -/
def bumpStarts (st : Stats) (d : Int) (c : Nat) : Stats :=
  let b := getBucket st d c
  setDay st d (setBucketIn (getDay st d) c ⟨b.starts + 1, b.runtimeMs⟩)

/-- Models `_ensureDayEntry(date, c)` followed by
`stats[date][c].runtimeMs += ms`. -/
def addRuntime (st : Stats) (d : Int) (c : Nat) (ms : Int) : Stats :=
  let b := getBucket st d c
  setDay st d (setBucketIn (getDay st d) c ⟨b.starts, b.runtimeMs + ms⟩)

/-- The body of the `setTimeout` callback shared by both revisions
(record runtime if a start was captured, persist, mark the machine
stopped, emit `machineStopped`, null the timer slot).  The scheduler
removes the fired timer from the arena; callers only invoke this for a
timer still present in `liveTimers` (a cancelled timer never runs). -/
def fireTimer (s : EngineState) (t : Timer) (fireNow : Int) : EngineState :=
  let s0 := { s with liveTimers := s.liveTimers.filter (fun t' => t'.tid ≠ t.tid) }
  let s1 :=
    match t.capturedStartedAt with
    | some st =>
        _saveStats { s0 with stats := addRuntime s0.stats (_today fireNow) t.chan (fireNow - st) }
    | none => s0
  let s2 :=
    match s1.machines t.chan with
    | some m => setMachine s1 t.chan { m with isRunning := false, startedAt := none }
    | none => s1
  let s3 := { s2 with events := s2.events ++ [Event.machineStopped t.chan] }
  { s3 with stopTimers := fun c => if c = t.chan then none else s3.stopTimers c }

/-- JS truthiness comparison `power > threshold` where `power` may be
`undefined` (`undefined > n` is `false`). -/
def qGt (a : Option ℚ) (b : ℚ) : Bool :=
  match a with
  | some x => decide (b < x)
  | none => false

/-- JS comparison `power < threshold` where `power` may be `undefined`. -/
def qLt (a : Option ℚ) (b : ℚ) : Bool :=
  match a with
  | some x => decide (x < b)
  | none => false

/-- JS `a || b` on a possibly-absent rational field: a present `0` is
falsy and falls through to `b`. -/
def jsOrQ (a b : Option ℚ) : Option ℚ :=
  match a with
  | some v => if v = 0 then b else some v
  | none => b

/-- JS `a || b` on a possibly-absent channel number (`0` is falsy). -/
def jsOrN (a b : Option Nat) : Option Nat :=
  match a with
  | some v => if v = 0 then b else some v
  | none => b

/-- One `em:<n>` entry inside a NotifyStatus `params` object. -/
structure EmEntry where
  power : Option ℚ
  current : Option ℚ
  deriving DecidableEq

/-- One entry of a `channels` array payload. -/
structure ChannelEntry where
  channel : Option Nat
  power : Option ℚ
  deriving DecidableEq

/-- One entry of a positionally-indexed `energy` array payload. -/
structure EnergyEntry where
  power : Option ℚ
  deriving DecidableEq

/-- The decoded JSON object as far as `handleDeviceData` inspects it:
every field the function reads, each possibly absent. -/
structure DeviceData where
  method : Option String
  params : Option (List (String × EmEntry))
  channel : Option Nat
  Channel : Option Nat
  power : Option ℚ
  Power : Option ℚ
  active_power : Option ℚ
  ActivePower : Option ℚ
  channels : Option (List ChannelEntry)
  energy : Option (List EnergyEntry)
  deriving DecidableEq

/-- Channel number extracted from a NotifyStatus params key: models
`parseInt(key.split(':')[1], 10)` for the decimal-suffixed `em:<n>` keys
the device sends (`String.toNat?` standing in for `parseInt`; a key with
no parseable suffix yields `NaN` in JS and `none` here, and is skipped). -/
def emKeyChannel (key : String) : Option Nat :=
  ((key.splitOn ":").get? 1).bind String.toNat?

/-- The stats-file contents as far as `_loadStats` distinguishes them. -/
inductive StatsFileContent where
  | empty
  | valid (s : Stats)
  | corrupt
  deriving DecidableEq

/-- The backing store at startup: absent, or present with some contents. -/
inductive FileState where
  | missing
  | present (c : StatsFileContent)
  deriving DecidableEq

/-- Models `_loadStats` (identical in both revisions): a missing file, a
file that is empty after `trim()`, or one whose `JSON.parse` throws (the
exception is caught and logged) all yield the empty history `\x7b\x7d`. -/
def _loadStats : FileState → Stats
  | .missing => []
  | .present .empty => []
  | .present (.valid s) => s
  | .present .corrupt => []

/-- Connection-flow diagnostics, the part touched by the message handler. -/
structure DebugState where
  messagesReceived : Nat
  lastMessageAt : Option Int
  lastMessageTopic : Option String
  lastMessagePayload : Option String
  deriving DecidableEq

/-- Models the payload truncation in the message handler. -/
def truncatePayload (raw : String) : String :=
  if raw.length > 500 then (raw.take 500) ++ "..." else raw

/-- One row of the object `getStats` returns for a channel. -/
structure StatEntry where
  name : String
  starts : Nat
  runtimeMs : Int
  runtimeHuman : String
  deriving DecidableEq

/-- Models `_formatDuration` (identical in both revisions): falsy `0`
renders as `"0m"`, otherwise hours and minutes by floor division. -/
def _formatDuration (ms : Int) : String :=
  if ms = 0 then "0m"
  else
    let h := ms.fdiv 3600000
    let m := (ms.fmod 3600000).fdiv 60000
    if 0 < h then toString h ++ "h " ++ toString m ++ "m" else toString m ++ "m"

/-- Models `getStats(days)` (identical in both revisions): keep the days
at or after `cutoff = now - days` (the source iterates date keys in
sorted order; order is irrelevant to the properties proved here, so the
stored order is kept), resolving each channel to its machine's display
name with a `"Channel <n>"` fallback and rendering the runtime. -/
def getStats (s : EngineState) (days : Nat) (now : Int) :
    List (Int × List (Nat × StatEntry)) :=
  let cutoff : Int := now - (days : Int) * 86400000
  s.stats.filterMap fun de =>
    if cutoff ≤ de.1 * 86400000 then
      some (de.1, de.2.map fun ce =>
        (ce.1,
          { name :=
              match s.machines ce.1 with
              | some m => m.name
              | none => "Channel " ++ toString ce.1,
            starts := ce.2.starts,
            runtimeMs := ce.2.runtimeMs,
            runtimeHuman := _formatDuration ce.2.runtimeMs }))
    else none

namespace MqttClient

/-- The six machines of `src/utils/mqttClient.js`'s constructor. -/
def initMachines : Nat → Option Machine := fun c =>
  if c = 1 then some ⟨1, "Pralnik 10kg #1", some 0, false, none, none⟩
  else if c = 2 then some ⟨2, "Pralnik 10kg #2", some 0, false, none, none⟩
  else if c = 3 then some ⟨3, "Pralnik 10kg #3", some 0, false, none, none⟩
  else if c = 4 then some ⟨4, "Pralnik 18kg", some 0, false, none, none⟩
  else if c = 5 then some ⟨5, "Sušilnik #1", some 0, false, none, none⟩
  else if c = 6 then some ⟨6, "Sušilnik #2", some 0, false, none, none⟩
  else none

/-- Constructor state: machines as above, no timers, stats loaded from
the backing file, nothing emitted yet. -/
def initState (file : FileState) (diskOk : Bool) : EngineState :=
  { machines := initMachines, stopTimers := fun _ => none, liveTimers := [],
    nextTid := 0, stats := _loadStats file,
    saved := match file with
             | .missing => none
             | .present .empty => some []
             | .present (.valid st) => some st
             | .present .corrupt => none,
    diskOk := diskOk, events := [] }

/-- `const startThreshold = isDryer ? 100 : 10` with
`isDryer = (channel == 5 || channel == 6)`. -/
def startThreshold (channel : Nat) : ℚ :=
  if channel = 5 ∨ channel = 6 then 100 else 10

/-- `const stopThreshold = isDryer ? 50 : 5`. -/
def stopThreshold (channel : Nat) : ℚ :=
  if channel = 5 ∨ channel = 6 then 50 else 5

/-- `updateMachineStatus(channel, currentPower)` of
`src/utils/mqttClient.js` lines 177–236: unknown channel returns
silently; otherwise record the power, then either (a) power above the
start threshold: cancel any pending stop timer and, if idle, start the
machine (stamp `startedAt`/`lastStartedAt`, bump today's start counter,
persist, emit `machineStarted`); or (b) power below the stop threshold
while running: arm a one-minute stop timer if none is armed, capturing
the current `startedAt`. -/
def updateMachineStatus (s : EngineState) (channel : Nat) (currentPower : Option ℚ)
    (now : Int) : EngineState :=
  match s.machines channel with
  | none => s
  | some machine =>
    let s1 := setMachine s channel { machine with power := currentPower }
    if qGt currentPower (startThreshold channel) then
      let s2 := clearStopTimer s1 channel
      if machine.isRunning then s2
      else
        let m' := { machine with
          power := currentPower
          isRunning := true
          startedAt := some now
          lastStartedAt := some now }
        let s3 := setMachine s2 channel m'
        let s4 := { s3 with stats := bumpStarts s3.stats (_today now) channel }
        let s5 := _saveStats s4
        { s5 with events := s5.events ++ [Event.machineStarted channel] }
    else if qLt currentPower (stopThreshold channel) && machine.isRunning then
      if (s1.stopTimers channel).isNone then
        armStopTimer s1 channel machine.startedAt now
      else s1
    else s1

/-- `handleDeviceData(topic, data)` of `src/utils/mqttClient.js`: the
NotifyStatus envelope, then the flat object (with falsy-OR field
extraction), the `channels` array, and the positional `energy` array. -/
def handleDeviceData (s : EngineState) (data : DeviceData) (now : Int) : EngineState :=
  if data.method = some "NotifyStatus" ∧ data.params.isSome = true then
    (data.params.getD []).foldl
      (fun acc kv =>
        if kv.1.startsWith "em:" then
          match emKeyChannel kv.1, kv.2.power with
          | some channel, some power => updateMachineStatus acc channel (some power) now
          | _, _ => acc
        else acc) s
  else
    let channel := jsOrN data.channel data.Channel
    let power := jsOrQ (jsOrQ (jsOrQ data.power data.Power) data.active_power) data.ActivePower
    match data.channels with
    | some chans =>
        chans.foldl
          (fun acc ch =>
            match ch.channel with
            | some c => updateMachineStatus acc c ch.power now
            | none => acc) s
    | none =>
      match channel, power with
      | some c, some p => updateMachineStatus s c (some p) now
      | _, _ =>
        match data.energy with
        | some items =>
            (items.foldl
              (fun (acc : EngineState × Nat) item =>
                (updateMachineStatus acc.1 (acc.2 + 1) (some (item.power.getD 0)) now,
                 acc.2 + 1))
              (s, 0)).1
        | none => s

/-- The `message` listener installed in `connect`: update diagnostics,
then `JSON.parse` the payload and dispatch — parse failures and any
exception out of `handleDeviceData` are swallowed by the surrounding
`try/catch` (`parsed = none` models a payload on which `JSON.parse`
threw). -/
def onMessage (dbg : DebugState) (s : EngineState) (topic raw : String)
    (parsed : Option DeviceData) (now : Int) : DebugState × EngineState :=
  let dbg' : DebugState :=
    { messagesReceived := dbg.messagesReceived + 1,
      lastMessageAt := some now,
      lastMessageTopic := some topic,
      lastMessagePayload := some (truncatePayload raw) }
  match parsed with
  | some data => (dbg', handleDeviceData s data now)
  | none => (dbg', s)

end MqttClient

namespace MqttClientPairs

/-- The eight virtual machines of `src/unnamed/part_005`'s constructor. -/
def initMachines : Nat → Option Machine := fun c =>
  if c = 1 then some ⟨1, "Pralnik 10kg #1", some 0, false, none, none⟩
  else if c = 2 then some ⟨2, "Pralnik 10kg #2", some 0, false, none, none⟩
  else if c = 3 then some ⟨3, "Pralnik 10kg #3", some 0, false, none, none⟩
  else if c = 4 then some ⟨4, "Pralnik 18kg", some 0, false, none, none⟩
  else if c = 5 then some ⟨5, "Sušilnik A1", some 0, false, none, none⟩
  else if c = 6 then some ⟨6, "Sušilnik A2", some 0, false, none, none⟩
  else if c = 7 then some ⟨7, "Sušilnik B1", some 0, false, none, none⟩
  else if c = 8 then some ⟨8, "Sušilnik B2", some 0, false, none, none⟩
  else none

/-- Constructor state of the pairs revision. -/
def initState (file : FileState) (diskOk : Bool) : EngineState :=
  { machines := initMachines, stopTimers := fun _ => none, liveTimers := [],
    nextTid := 0, stats := _loadStats file,
    saved := match file with
             | .missing => none
             | .present .empty => some []
             | .present (.valid st) => some st
             | .present .corrupt => none,
    diskOk := diskOk, events := [] }

/-- `this.DRYER_CHANNEL_MAP`: physical channel 5 → virtual pair (5, 6),
physical channel 6 → virtual pair (7, 8). -/
def DRYER_CHANNEL_MAP (c : Nat) : Option (Nat × Nat) :=
  if c = 5 then some (5, 6) else if c = 6 then some (7, 8) else none

/-- `this.DRYER_DUAL_CURRENT_THRESHOLD = 3.5` amperes (written as the
rational 7/2). -/
def DRYER_DUAL_CURRENT_THRESHOLD : ℚ := mkRat 7 2

/-- `_setMachineRunning(id, running, currentPower)` of
`src/unnamed/part_005` lines 202–243 (the `currentPower` argument is
used only for logging and is omitted): asked to run, it cancels any
pending stop timer and, if the machine was idle, performs the full start
transition; asked to stop while running with no timer armed, it arms the
one-minute stop timer capturing the current `startedAt`. -/
def _setMachineRunning (s : EngineState) (id : Nat) (running : Bool) (now : Int) :
    EngineState :=
  match s.machines id with
  | none => s
  | some machine =>
    if running then
      let s1 := clearStopTimer s id
      if machine.isRunning then s1
      else
        let m' := { machine with
          isRunning := true
          startedAt := some now
          lastStartedAt := some now }
        let s2 := setMachine s1 id m'
        let s3 := { s2 with stats := bumpStarts s2.stats (_today now) id }
        let s4 := _saveStats s3
        { s4 with events := s4.events ++ [Event.machineStarted id] }
    else
      if machine.isRunning && (s.stopTimers id).isNone then
        armStopTimer s id machine.startedAt now
      else s

/-- `updateDryerPair(physicalChannel, power, current)` of
`src/unnamed/part_005` lines 247–269.  The source destructures
`DRYER_CHANNEL_MAP[physicalChannel]` unguarded and is only called for
mapped channels; an unmapped channel is a no-op here. -/
def updateDryerPair (s : EngineState) (physicalChannel : Nat) (power : ℚ)
    (current : Option ℚ) (now : Int) : EngineState :=
  match DRYER_CHANNEL_MAP physicalChannel with
  | none => s
  | some (id1, id2) =>
    let START_POWER : ℚ := 100
    let STOP_POWER : ℚ := 50
    let s1 := match s.machines id1 with
              | some m => setMachine s id1 { m with power := some power }
              | none => s
    let s2 := match s1.machines id2 with
              | some m => setMachine s1 id2 { m with power := some power }
              | none => s1
    let anyRunning : Bool := decide (START_POWER < power)
    let bothRunning : Bool :=
      anyRunning && (match current with
                     | some c => decide (DRYER_DUAL_CURRENT_THRESHOLD ≤ c)
                     | none => false)
    let stopped : Bool := decide (power < STOP_POWER)
    let s3 := _setMachineRunning s2 id1 anyRunning now
    let s4 := _setMachineRunning s3 id2 bothRunning now
    if stopped then
      let s5 := _setMachineRunning s4 id1 false now
      _setMachineRunning s5 id2 false now
    else s4

/-- `updateMachineStatus(channel, currentPower)` of `src/unnamed/part_005`
lines 271–286 (washers only; `START_POWER = 10`, `STOP_POWER = 5`). -/
def updateMachineStatus (s : EngineState) (channel : Nat) (currentPower : Option ℚ)
    (now : Int) : EngineState :=
  match s.machines channel with
  | none => s
  | some machine =>
    let START_POWER : ℚ := 10
    let STOP_POWER : ℚ := 5
    let s1 := setMachine s channel { machine with power := currentPower }
    if qGt currentPower START_POWER then _setMachineRunning s1 channel true now
    else if qLt currentPower STOP_POWER then _setMachineRunning s1 channel false now
    else s1

/-- `handleDeviceData(topic, data)` of `src/unnamed/part_005`: as in the
simple revision, but NotifyStatus readings for a mapped dryer channel go
through `updateDryerPair` with the measured current. -/
def handleDeviceData (s : EngineState) (data : DeviceData) (now : Int) : EngineState :=
  if data.method = some "NotifyStatus" ∧ data.params.isSome = true then
    (data.params.getD []).foldl
      (fun acc kv =>
        if kv.1.startsWith "em:" then
          match emKeyChannel kv.1, kv.2.power with
          | some channel, some power =>
              if (DRYER_CHANNEL_MAP channel).isSome then
                updateDryerPair acc channel power kv.2.current now
              else updateMachineStatus acc channel (some power) now
          | _, _ => acc
        else acc) s
  else
    let channel := jsOrN data.channel data.Channel
    let power := jsOrQ (jsOrQ (jsOrQ data.power data.Power) data.active_power) data.ActivePower
    match data.channels with
    | some chans =>
        chans.foldl
          (fun acc ch =>
            match ch.channel with
            | some c => updateMachineStatus acc c ch.power now
            | none => acc) s
    | none =>
      match channel, power with
      | some c, some p => updateMachineStatus s c (some p) now
      | _, _ =>
        match data.energy with
        | some items =>
            (items.foldl
              (fun (acc : EngineState × Nat) item =>
                (updateMachineStatus acc.1 (acc.2 + 1) (some (item.power.getD 0)) now,
                 acc.2 + 1))
              (s, 0)).1
        | none => s

end MqttClientPairs

/-- The live-timer arena after `clearTimeout` of channel `c`'s handle
(the normal form of `(clearStopTimer s c).liveTimers`). -/
def clearedTimers (s : EngineState) (c : Nat) : List Timer :=
  match s.stopTimers c with
  | some tid => s.liveTimers.filter (fun t => t.tid ≠ tid)
  | none => s.liveTimers

/-- The live timers belonging to one channel. -/
def chanTimers (s : EngineState) (c : Nat) : List Timer :=
  s.liveTimers.filter (fun t => t.chan = c)

/-- The timer-arena invariant maintained by the engine: every live
timer's handle is below the next fresh handle, handles are pairwise
distinct, the live timers of a channel are exactly the one referenced by
`stopTimers` (so at most one per channel), and a referenced channel has
a machine. -/
def TimerInv (s : EngineState) : Prop :=
  (∀ t ∈ s.liveTimers, t.tid < s.nextTid) ∧
  (s.liveTimers.map Timer.tid).Nodup ∧
  (∀ c, (chanTimers s c).map Timer.tid = (s.stopTimers c).toList) ∧
  (∀ c, (s.stopTimers c).isSome = true → (s.machines c).isSome = true)

namespace MqttClientPairs

/-- The states reachable by the pairs revision: a constructor state,
followed by any interleaving of inbound broker messages and expiries of
still-armed timers (a cancelled timer never fires). -/
inductive Reachable : EngineState → Prop where
  | init (file : FileState) (diskOk : Bool) : Reachable (initState file diskOk)
  | msg (s : EngineState) (data : DeviceData) (now : Int) :
      Reachable s → Reachable (handleDeviceData s data now)
  | fire (s : EngineState) (t : Timer) (now : Int) :
      Reachable s → t ∈ s.liveTimers → Reachable (fireTimer s t now)

end MqttClientPairs

/-- The flat payload `\x7b"channel": 2, "power": 0\x7d` of claim C10. -/
def c10data : DeviceData :=
  { method := none, params := none, channel := some 2, Channel := none, power := some 0,
    Power := none, active_power := none, ActivePower := none, channels := none, energy := none }

/-- A decoded JSON object none of whose recognized fields are present
(e.g. an unrelated broker message). -/
def c8data : DeviceData :=
  { method := none, params := none, channel := none, Channel := none, power := none,
    Power := none, active_power := none, ActivePower := none, channels := none, energy := none }

/-- Pairs-revision engine started with no stats file. -/
def cex1_s0 : EngineState := MqttClientPairs.initState .missing true

/-- A 120 W reading (no current) on physical dryer channel 5: starts the
first virtual dryer. -/
def cex1_s1 : EngineState := MqttClientPairs.updateDryerPair cex1_s0 5 120 none 0

/-- A follow-up 70 W reading — between the pair's stop threshold (50 W)
and start threshold (100 W). -/
def cex1_s2 : EngineState := MqttClientPairs.updateDryerPair cex1_s1 5 70 none 1000

/-- A stats state whose backing file carried a bucket dated day 10,
queried at call time 0: the bucket's date lies in the future. -/
def cex9_s : EngineState :=
  { machines := MqttClient.initMachines, stopTimers := fun _ => none, liveTimers := [],
    nextTid := 0, stats := [(10, [(1, ⟨2, 0⟩)])], saved := none, diskOk := true, events := [] }

/-- A concrete machine that is currently running (started at t = 5). -/
def wMachineRun : Machine := ⟨1, "Pralnik 10kg #1", some 0, true, some 5, some 5⟩

/-- A concrete engine state with machine 1 running and no timers. -/
def wStateRun : EngineState :=
  { machines := fun c => if c = 1 then some wMachineRun else none,
    stopTimers := fun _ => none, liveTimers := [], nextTid := 0,
    stats := [], saved := some [], diskOk := true, events := [] }

/-- A concrete all-idle simple-revision engine state on a failing disk. -/
def wStateIdleBad : EngineState := MqttClient.initState .missing false

/-- A concrete all-idle simple-revision engine state. -/
def wStateIdle : EngineState := MqttClient.initState .missing true

/-- A concrete all-idle pairs-revision engine state with machine 6's
`startedAt` history populated. -/
def wStatePairsIdle : EngineState := MqttClientPairs.initState .missing true

attribute [ext] EngineState

section HelperLemmas

variable {s : EngineState} {c c2 id : Nat} {m : Machine} {b : Bucket}
variable {ds : DayStats} {st : Stats} {d d2 : Int}

theorem setMachine_machines_self : (setMachine s c m).machines c = some m := by
  simp [setMachine]

theorem setMachine_machines_ne (h : c2 ≠ c) :
    (setMachine s c m).machines c2 = s.machines c2 := by
  simp [setMachine, h]

theorem setMachine_stopTimers : (setMachine s c m).stopTimers = s.stopTimers := rfl

theorem setMachine_liveTimers : (setMachine s c m).liveTimers = s.liveTimers := rfl

theorem setMachine_stats : (setMachine s c m).stats = s.stats := rfl

theorem setMachine_events : (setMachine s c m).events = s.events := rfl

theorem setMachine_nextTid : (setMachine s c m).nextTid = s.nextTid := rfl

theorem setMachine_saved : (setMachine s c m).saved = s.saved := rfl

theorem setMachine_diskOk : (setMachine s c m).diskOk = s.diskOk := rfl

theorem clearStopTimer_machines : (clearStopTimer s c).machines = s.machines := by
  unfold clearStopTimer
  cases s.stopTimers c <;> rfl

theorem clearStopTimer_stats : (clearStopTimer s c).stats = s.stats := by
  unfold clearStopTimer
  cases s.stopTimers c <;> rfl

theorem clearStopTimer_events : (clearStopTimer s c).events = s.events := by
  unfold clearStopTimer
  cases s.stopTimers c <;> rfl

theorem clearStopTimer_nextTid : (clearStopTimer s c).nextTid = s.nextTid := by
  unfold clearStopTimer
  cases s.stopTimers c <;> rfl

theorem clearStopTimer_saved : (clearStopTimer s c).saved = s.saved := by
  unfold clearStopTimer
  cases s.stopTimers c <;> rfl

theorem clearStopTimer_diskOk : (clearStopTimer s c).diskOk = s.diskOk := by
  unfold clearStopTimer
  cases s.stopTimers c <;> rfl

theorem clearStopTimer_stopTimers :
    (clearStopTimer s c).stopTimers = fun c' => if c' = c then none else s.stopTimers c' := by
  unfold clearStopTimer
  cases h : s.stopTimers c with
  | none => funext c'; by_cases hc : c' = c <;> simp [hc, h]
  | some tid => rfl

theorem clearStopTimer_liveTimers_subset :
    ∀ t ∈ (clearStopTimer s c).liveTimers, t ∈ s.liveTimers := by
  unfold clearStopTimer
  cases s.stopTimers c with
  | none => exact fun t ht => ht
  | some tid => exact fun t ht => (List.mem_filter.mp ht).1

theorem lookup_setBucketIn_self : lookupKey (setBucketIn ds c b) c = some b := by
  induction ds with
  | nil => simp [setBucketIn, lookupKey]
  | cons hd tl ih =>
    obtain ⟨c', b'⟩ := hd
    by_cases h : c' = c
    · subst h
      simp [setBucketIn, lookupKey]
    · simpa [setBucketIn, lookupKey, h] using ih

theorem lookup_setBucketIn_ne (h : c2 ≠ c) :
    lookupKey (setBucketIn ds c b) c2 = lookupKey ds c2 := by
  induction ds with
  | nil => simp [setBucketIn, lookupKey, Ne.symm h]
  | cons hd tl ih =>
    obtain ⟨c', b'⟩ := hd
    by_cases hc : c' = c
    · subst hc
      simp [setBucketIn, lookupKey, Ne.symm h]
    · by_cases hc2 : c' = c2
      · subst hc2
        simp [setBucketIn, lookupKey, hc]
      · simp [setBucketIn, lookupKey, hc, hc2, ih]

theorem lookup_setDay_self {x : DayStats} : lookupKey (setDay st d x) d = some x := by
  induction st with
  | nil => simp [setDay, lookupKey]
  | cons hd tl ih =>
    obtain ⟨d', ds'⟩ := hd
    by_cases h : d' = d
    · subst h
      simp [setDay, lookupKey]
    · simpa [setDay, lookupKey, h] using ih

theorem lookup_setDay_ne {x : DayStats} (h : d2 ≠ d) :
    lookupKey (setDay st d x) d2 = lookupKey st d2 := by
  induction st with
  | nil => simp [setDay, lookupKey, Ne.symm h]
  | cons hd tl ih =>
    obtain ⟨d', ds'⟩ := hd
    by_cases hc : d' = d
    · subst hc
      simp [setDay, lookupKey, Ne.symm h]
    · by_cases hc2 : d' = d2
      · subst hc2
        simp [setDay, lookupKey, hc]
      · simp [setDay, lookupKey, hc, hc2, ih]

theorem getBucket_bumpStarts_self :
    getBucket (bumpStarts st d c) d c =
      ⟨(getBucket st d c).starts + 1, (getBucket st d c).runtimeMs⟩ := by
  unfold bumpStarts getBucket getDay
  rw [lookup_setDay_self]
  simp [lookup_setBucketIn_self]

theorem getBucket_addRuntime_self {ms : Int} :
    getBucket (addRuntime st d c ms) d c =
      ⟨(getBucket st d c).starts, (getBucket st d c).runtimeMs + ms⟩ := by
  unfold addRuntime getBucket getDay
  rw [lookup_setDay_self]
  simp [lookup_setBucketIn_self]

end HelperLemmas

section ScenarioLemmas

variable {s : EngineState} {c id channel : Nat} {m : Machine} {now : Int}

theorem clearStopTimer_liveTimers :
    (clearStopTimer s c).liveTimers = clearedTimers s c := by
  unfold clearStopTimer clearedTimers
  cases s.stopTimers c <;> rfl

namespace MqttClientPairs

theorem _setMachineRunning_none (h : s.machines id = none) (r : Bool) (now : Int) :
    _setMachineRunning s id r now = s := by
  unfold _setMachineRunning
  rw [h]

theorem _setMachineRunning_start (h : s.machines id = some m) (hr : m.isRunning = false)
    (now : Int) :
    _setMachineRunning s id true now =
      { machines := fun c => if c = id then
            some { m with isRunning := true, startedAt := some now, lastStartedAt := some now }
          else s.machines c,
        stopTimers := fun c => if c = id then none else s.stopTimers c,
        liveTimers := clearedTimers s id,
        nextTid := s.nextTid,
        stats := bumpStarts s.stats (_today now) id,
        saved := if s.diskOk then some (bumpStarts s.stats (_today now) id) else s.saved,
        diskOk := s.diskOk,
        events := s.events ++ [Event.machineStarted id] } := by
  unfold _setMachineRunning
  rw [h]
  simp only [if_true, hr, Bool.false_eq_true, if_false, _saveStats, setMachine]
  by_cases hd : s.diskOk = true <;>
    ext <;>
      simp [hd, clearStopTimer_machines, clearStopTimer_stats, clearStopTimer_events,
        clearStopTimer_nextTid, clearStopTimer_saved, clearStopTimer_diskOk,
        clearStopTimer_stopTimers, clearStopTimer_liveTimers]

theorem _setMachineRunning_true_running (h : s.machines id = some m)
    (hr : m.isRunning = true) (now : Int) :
    _setMachineRunning s id true now = clearStopTimer s id := by
  unfold _setMachineRunning
  rw [h]
  simp [hr]

theorem _setMachineRunning_false_arm (h : s.machines id = some m)
    (hr : m.isRunning = true) (ht : s.stopTimers id = none) (now : Int) :
    _setMachineRunning s id false now = armStopTimer s id m.startedAt now := by
  unfold _setMachineRunning
  rw [h]
  simp [hr, ht]

theorem _setMachineRunning_false_idle (h : s.machines id = some m)
    (hr : m.isRunning = false) (now : Int) :
    _setMachineRunning s id false now = s := by
  unfold _setMachineRunning
  rw [h]
  simp [hr]

theorem _setMachineRunning_false_timer (h : s.machines id = some m)
    (ht : (s.stopTimers id).isSome = true) (now : Int) :
    _setMachineRunning s id false now = s := by
  unfold _setMachineRunning
  rw [h]
  simp [Option.isNone_iff_eq_none]
  intro _ hn
  rw [hn] at ht
  simp at ht

end MqttClientPairs

namespace MqttClient

theorem updateMachineStatus_unknown (h : s.machines channel = none)
    (p : Option ℚ) (now : Int) :
    updateMachineStatus s channel p now = s := by
  unfold updateMachineStatus
  rw [h]

theorem updateMachineStatus_start {p : Option ℚ} (h : s.machines channel = some m)
    (hr : m.isRunning = false) (hp : qGt p (startThreshold channel) = true) (now : Int) :
    updateMachineStatus s channel p now =
      { machines := fun c => if c = channel then
            some { m with
              power := p
              isRunning := true
              startedAt := some now
              lastStartedAt := some now }
          else s.machines c,
        stopTimers := fun c => if c = channel then none else s.stopTimers c,
        liveTimers := clearedTimers s channel,
        nextTid := s.nextTid,
        stats := bumpStarts s.stats (_today now) channel,
        saved := if s.diskOk then some (bumpStarts s.stats (_today now) channel) else s.saved,
        diskOk := s.diskOk,
        events := s.events ++ [Event.machineStarted channel] } := by
  unfold updateMachineStatus
  rw [h]
  simp only [hp, if_true, hr, Bool.false_eq_true, if_false, _saveStats, setMachine]
  by_cases hd : s.diskOk = true <;>
    ext <;>
      simp [hd, clearStopTimer_machines, clearStopTimer_stats, clearStopTimer_events,
        clearStopTimer_nextTid, clearStopTimer_saved, clearStopTimer_diskOk,
        clearStopTimer_stopTimers, clearStopTimer_liveTimers, clearedTimers] <;>
      (try (split_ifs <;> simp))

theorem updateMachineStatus_already_running {p : Option ℚ}
    (h : s.machines channel = some m) (hr : m.isRunning = true)
    (hp : qGt p (startThreshold channel) = true) (now : Int) :
    updateMachineStatus s channel p now =
      { machines := fun c => if c = channel then some { m with power := p }
          else s.machines c,
        stopTimers := fun c => if c = channel then none else s.stopTimers c,
        liveTimers := clearedTimers s channel,
        nextTid := s.nextTid,
        stats := s.stats,
        saved := s.saved,
        diskOk := s.diskOk,
        events := s.events } := by
  unfold updateMachineStatus
  rw [h]
  simp only [hp, if_true, hr, setMachine]
  ext <;>
    simp [clearStopTimer_machines, clearStopTimer_stats, clearStopTimer_events,
      clearStopTimer_nextTid, clearStopTimer_saved, clearStopTimer_diskOk,
      clearStopTimer_stopTimers, clearStopTimer_liveTimers, clearedTimers] <;>
    (try (split_ifs <;> simp))

theorem updateMachineStatus_arm {p : Option ℚ} (h : s.machines channel = some m)
    (hr : m.isRunning = true) (hgt : qGt p (startThreshold channel) = false)
    (hlt : qLt p (stopThreshold channel) = true) (ht : s.stopTimers channel = none)
    (now : Int) :
    updateMachineStatus s channel p now =
      { machines := fun c => if c = channel then some { m with power := p }
          else s.machines c,
        stopTimers := fun c => if c = channel then some s.nextTid else s.stopTimers c,
        liveTimers := s.liveTimers ++ [⟨s.nextTid, channel, m.startedAt, now + 60000⟩],
        nextTid := s.nextTid + 1,
        stats := s.stats,
        saved := s.saved,
        diskOk := s.diskOk,
        events := s.events } := by
  unfold updateMachineStatus
  rw [h]
  simp only [hgt, Bool.false_eq_true, if_false, hlt, hr, Bool.and_self, if_true,
    setMachine, armStopTimer, ht]
  ext <;> simp [ht]

theorem updateMachineStatus_power_only {p : Option ℚ} (h : s.machines channel = some m)
    (hgt : qGt p (startThreshold channel) = false)
    (hguard : (qLt p (stopThreshold channel) && m.isRunning) = false) (now : Int) :
    updateMachineStatus s channel p now = setMachine s channel { m with power := p } := by
  unfold updateMachineStatus
  rw [h]
  simp [hgt, hguard]

theorem updateMachineStatus_timer_already {p : Option ℚ}
    (h : s.machines channel = some m) (hgt : qGt p (startThreshold channel) = false)
    (ht : (s.stopTimers channel).isSome = true) (now : Int) :
    updateMachineStatus s channel p now = setMachine s channel { m with power := p } := by
  unfold updateMachineStatus
  rw [h]
  have hn : (s.stopTimers channel).isNone = false := by
    cases hval : s.stopTimers channel
    · rw [hval] at ht
      simp at ht
    · rfl
  by_cases hg : (qLt p (stopThreshold channel) && m.isRunning) = true
  · simp [hgt, hg, setMachine, hn]
  · simp only [Bool.not_eq_true] at hg
    simp [hgt, hg, setMachine]

end MqttClient

theorem fireTimer_eq {t : Timer} {st fireNow : Int} (hc : t.capturedStartedAt = some st)
    (hm : s.machines t.chan = some m) :
    fireTimer s t fireNow =
      { machines := fun c => if c = t.chan then
            some { m with isRunning := false, startedAt := none }
          else s.machines c,
        stopTimers := fun c => if c = t.chan then none else s.stopTimers c,
        liveTimers := s.liveTimers.filter (fun t' => t'.tid ≠ t.tid),
        nextTid := s.nextTid,
        stats := addRuntime s.stats (_today fireNow) t.chan (fireNow - st),
        saved := if s.diskOk then some (addRuntime s.stats (_today fireNow) t.chan (fireNow - st))
                 else s.saved,
        diskOk := s.diskOk,
        events := s.events ++ [Event.machineStopped t.chan] } := by
  unfold fireTimer
  rw [hc]
  simp only [_saveStats, setMachine]
  by_cases hd : s.diskOk = true <;> ext <;> simp [hd, hm]

end ScenarioLemmas

/-- C10: a flat-object payload whose power field is exactly 0 (and no
channels/energy array) produces no reading at all in either revision:
the falsy `||` extraction treats the 0 as absent, so the handler leaves
the machine's stored power and all debounce state untouched. -/
theorem c10_flat_zero_power_dropped (s s2 : EngineState) (now now2 : Int) :
    MqttClient.handleDeviceData s c10data now = s ∧
    MqttClientPairs.handleDeviceData s2 c10data now2 = s2 :=
  ⟨rfl, rfl⟩

/-- C8: the message listener never changes engine state on a non-JSON
payload (only the diagnostics counter moves); a JSON object matching
none of the recognized shapes leaves the state unchanged; and a reading
for an unknown channel is ignored. -/
theorem c8_bad_messages_are_inert (dbg : DebugState) (s : EngineState)
    (topic raw : String) (now : Int) (data : DeviceData) (ch : Nat) (p : Option ℚ) :
    ((MqttClient.onMessage dbg s topic raw none now).2 = s ∧
     (MqttClient.onMessage dbg s topic raw none now).1.messagesReceived =
       dbg.messagesReceived + 1) ∧
    (¬(data.method = some "NotifyStatus" ∧ data.params.isSome = true) →
      data.channels = none → data.energy = none →
      (jsOrN data.channel data.Channel = none ∨
        jsOrQ (jsOrQ (jsOrQ data.power data.Power) data.active_power) data.ActivePower = none) →
      MqttClient.handleDeviceData s data now = s) ∧
    (s.machines ch = none → MqttClient.updateMachineStatus s ch p now = s) := by
  refine ⟨⟨rfl, rfl⟩, ?_, ?_⟩
  · intro hshape hch hen hflat
    unfold MqttClient.handleDeviceData
    rw [if_neg hshape]
    rcases hflat with hflat | hflat
    · cases hc : jsOrN data.channel data.Channel
      · simp [hch, hen, hc]
      · rw [hc] at hflat
        exact absurd hflat (by simp)
    · cases hc : jsOrN data.channel data.Channel
      · simp [hch, hen, hc]
      · simp [hch, hen, hc, hflat]
  · intro hm
    exact MqttClient.updateMachineStatus_unknown hm p now

/-- Witness for C8 at concrete inputs: an unparseable payload, an
unrecognized object, and a channel-99 reading all leave the idle state
unchanged. -/
theorem c8_bad_messages_are_inert_witness :
    (MqttClient.onMessage ⟨0, none, none, none⟩ wStateIdle "t" "x" none 0).2 = wStateIdle ∧
    MqttClient.handleDeviceData wStateIdle c8data 0 = wStateIdle ∧
    MqttClient.updateMachineStatus wStateIdle 99 none 0 = wStateIdle :=
  ⟨(c8_bad_messages_are_inert ⟨0, none, none, none⟩ wStateIdle "t" "x" 0 c8data 99 none).1.1,
   (c8_bad_messages_are_inert ⟨0, none, none, none⟩ wStateIdle "t" "x" 0 c8data 99 none).2.1
     (by simp [c8data]) rfl rfl (Or.inl rfl),
   (c8_bad_messages_are_inert ⟨0, none, none, none⟩ wStateIdle "t" "x" 0 c8data 99 none).2.2 rfl⟩

/-- C9 counterexample: the claim says every returned bucket's date lies
within the trailing window *ending at the call time*, but `getStats`
checks only the lower cutoff.  A stats store carrying a bucket dated day
10, queried at call time 0 with a 30-day window, returns that bucket
even though its date is strictly after the call time. -/
theorem c9_counterexample :
    getStats cex9_s 30 0 =
      [(10, [(1, ⟨"Pralnik 10kg #1", 2, 0, "0m"⟩)])] ∧ (0 : Int) < 10 * 86400000 := by
  constructor
  · rfl
  · decide

/-- C9 (amended): every bucket returned by `getStats(daysBack)` has a
date whose midnight timestamp is at or after the cutoff (call time minus
`daysBack` days) — the window is not additionally bounded above by the
call time; each returned entry for a channel with a known machine
carries that machine's display name; and `runtimeHuman` renders
`runtimeMs` as `"<h>h <m>m"` when at least one hour, `"<m>m"` when under
an hour, and `"0m"` for 0 ms. -/
theorem c9_amended_window_and_rendering (s : EngineState) (days : Nat) (now : Int)
    (d : Int) (entries : List (Nat × StatEntry))
    (h : (d, entries) ∈ getStats s days now) :
    now - (days : Int) * 86400000 ≤ d * 86400000 ∧
    (∀ c e, (c, e) ∈ entries →
      (∀ m, s.machines c = some m → e.name = m.name) ∧
      e.runtimeHuman = _formatDuration e.runtimeMs) ∧
    _formatDuration 0 = "0m" ∧
    (∀ ms : Int, 3600000 ≤ ms →
      _formatDuration ms =
        toString (ms.fdiv 3600000) ++ "h " ++ toString ((ms.fmod 3600000).fdiv 60000) ++ "m") ∧
    (∀ ms : Int, 0 < ms → ms < 3600000 →
      _formatDuration ms = toString (ms.fdiv 60000) ++ "m") := by
  have hfmt0 : _formatDuration 0 = "0m" := rfl
  have hfmtBig : ∀ ms : Int, 3600000 ≤ ms →
      _formatDuration ms =
        toString (ms.fdiv 3600000) ++ "h " ++ toString ((ms.fmod 3600000).fdiv 60000) ++ "m" := by
    intro ms hms
    have hne : ms ≠ 0 := by omega
    have hpos : 0 < ms.fdiv 3600000 := by
      rw [Int.fdiv_eq_ediv _ (by norm_num : (0 : Int) ≤ 3600000)]
      have h1 := (Int.le_ediv_iff_mul_le (by norm_num : (0 : Int) < 3600000)).mpr
        (by omega : 1 * 3600000 ≤ ms)
      omega
    simp only [_formatDuration, hne, if_false]
    rw [if_pos hpos]
  have hfmtSmall : ∀ ms : Int, 0 < ms → ms < 3600000 →
      _formatDuration ms = toString (ms.fdiv 60000) ++ "m" := by
    intro ms h1 h2
    have hne : ms ≠ 0 := by omega
    have hz : ms.fdiv 3600000 = 0 := by
      rw [Int.fdiv_eq_ediv _ (by norm_num : (0 : Int) ≤ 3600000)]
      exact Int.ediv_eq_zero_of_lt (by omega) h2
    have hmod : ms.fmod 3600000 = ms := by
      rw [Int.fmod_eq_emod _ (by norm_num : (0 : Int) ≤ 3600000)]
      exact Int.emod_eq_of_lt (by omega) h2
    simp only [_formatDuration, hne, if_false, hz, hmod]
    simp
  simp only [getStats] at h
  obtain ⟨de, hde, hsome⟩ := List.mem_filterMap.mp h
  by_cases hcut : now - (days : Int) * 86400000 ≤ de.1 * 86400000
  · rw [if_pos hcut] at hsome
    rw [Option.some.injEq, Prod.mk.injEq] at hsome
    obtain ⟨hd1, hent⟩ := hsome
    subst hd1
    refine ⟨hcut, ?_, hfmt0, hfmtBig, hfmtSmall⟩
    intro c e he
    rw [← hent] at he
    obtain ⟨ce, hce, hfe⟩ := List.mem_map.mp he
    rw [Prod.mk.injEq] at hfe
    obtain ⟨hc1, he1⟩ := hfe
    constructor
    · intro m hm
      rw [← he1]
      rw [← hc1] at hm
      simp [hm]
    · rw [← he1]
  · rw [if_neg hcut] at hsome
    exact absurd hsome (by simp)

/-- Witness for C9 (amended) at the concrete future-dated store. -/
theorem c9_amended_witness :
    (0 : Int) - ((30 : Nat) : Int) * 86400000 ≤ 10 * 86400000 ∧
    (∀ c e, (c, e) ∈ [(1, (⟨"Pralnik 10kg #1", 2, 0, "0m"⟩ : StatEntry))] →
      (∀ m, cex9_s.machines c = some m → e.name = m.name) ∧
      e.runtimeHuman = _formatDuration e.runtimeMs) ∧
    _formatDuration 0 = "0m" ∧
    (∀ ms : Int, 3600000 ≤ ms →
      _formatDuration ms =
        toString (ms.fdiv 3600000) ++ "h " ++ toString ((ms.fmod 3600000).fdiv 60000) ++ "m") ∧
    (∀ ms : Int, 0 < ms → ms < 3600000 →
      _formatDuration ms = toString (ms.fdiv 60000) ++ "m") :=
  c9_amended_window_and_rendering cex9_s 30 0 10
    [(1, ⟨"Pralnik 10kg #1", 2, 0, "0m"⟩)] (by decide)

/-- C7: stats persistence is write-through (after any reading or timer
expiry on a healthy disk, the persisted copy equals the in-memory
stats), failure-tolerant (a failing write is swallowed: the start
counter still increments in memory and the persisted copy is simply left
behind, with no exception), and startup loading of a missing or empty
stats file yields the empty history. -/
theorem c7_persistence_write_through :
    (∀ s : EngineState, ∀ ch : Nat, ∀ p : Option ℚ, ∀ now : Int,
       s.diskOk = true → s.saved = some s.stats →
       (MqttClient.updateMachineStatus s ch p now).saved =
         some (MqttClient.updateMachineStatus s ch p now).stats) ∧
    (∀ s : EngineState, ∀ t : Timer, ∀ fireNow : Int,
       s.diskOk = true → s.saved = some s.stats →
       (fireTimer s t fireNow).saved = some (fireTimer s t fireNow).stats) ∧
    (∀ s : EngineState, ∀ ch : Nat, ∀ m : Machine, ∀ p : ℚ, ∀ now : Int,
       s.machines ch = some m → m.isRunning = false →
       qGt (some p) (MqttClient.startThreshold ch) = true → s.diskOk = false →
       getBucket (MqttClient.updateMachineStatus s ch (some p) now).stats (_today now) ch =
         ⟨(getBucket s.stats (_today now) ch).starts + 1,
          (getBucket s.stats (_today now) ch).runtimeMs⟩ ∧
       (MqttClient.updateMachineStatus s ch (some p) now).saved = s.saved) ∧
    _loadStats .missing = [] ∧ _loadStats (.present .empty) = [] := by
  refine ⟨?_, ?_, ?_, rfl, rfl⟩
  · intro s ch p now hd hsync
    cases hmc : s.machines ch with
    | none =>
        rw [MqttClient.updateMachineStatus_unknown hmc]
        exact hsync
    | some m =>
        by_cases hgt : qGt p (MqttClient.startThreshold ch) = true
        · by_cases hr : m.isRunning = true
          · rw [MqttClient.updateMachineStatus_already_running hmc hr hgt]
            exact hsync
          · have hr' : m.isRunning = false := by simpa using hr
            rw [MqttClient.updateMachineStatus_start hmc hr' hgt]
            simp [hd]
        · have hgt' : qGt p (MqttClient.startThreshold ch) = false := by simpa using hgt
          by_cases hguard : (qLt p (MqttClient.stopThreshold ch) && m.isRunning) = true
          · cases hst : s.stopTimers ch with
            | none =>
                rw [Bool.and_eq_true] at hguard
                obtain ⟨hlt, hr⟩ := hguard
                rw [MqttClient.updateMachineStatus_arm hmc hr hgt' hlt hst]
                exact hsync
            | some tid =>
                have hsome : (s.stopTimers ch).isSome = true := by rw [hst]; rfl
                rw [MqttClient.updateMachineStatus_timer_already hmc hgt' hsome]
                exact hsync
          · have hguard' : (qLt p (MqttClient.stopThreshold ch) && m.isRunning) = false := by
              simpa using hguard
            rw [MqttClient.updateMachineStatus_power_only hmc hgt' hguard']
            exact hsync
  · intro s t fireNow hd hsync
    unfold fireTimer
    cases hcap : t.capturedStartedAt <;> cases hmc : s.machines t.chan <;>
      simp [_saveStats, setMachine, hd, hsync, hmc]
  · intro s ch m p now hmc hr hp hdisk
    rw [MqttClient.updateMachineStatus_start hmc hr hp]
    constructor
    · simp [getBucket_bumpStarts_self]
    · simp [hdisk]

/-- Witness for C7 at concrete states: an in-sync running state stays in
sync after a reading and after a timer expiry, and a start on a failing
disk still increments the counter while the persisted copy is left as
it was. -/
theorem c7_persistence_write_through_witness :
    (MqttClient.updateMachineStatus wStateRun 1 (some 2) 0).saved =
      some (MqttClient.updateMachineStatus wStateRun 1 (some 2) 0).stats ∧
    (fireTimer wStateRun ⟨0, 1, some 5, 60⟩ 100).saved =
      some (fireTimer wStateRun ⟨0, 1, some 5, 60⟩ 100).stats ∧
    (getBucket (MqttClient.updateMachineStatus wStateIdleBad 1 (some 15) 0).stats (_today 0) 1 =
      ⟨(getBucket wStateIdleBad.stats (_today 0) 1).starts + 1,
       (getBucket wStateIdleBad.stats (_today 0) 1).runtimeMs⟩ ∧
     (MqttClient.updateMachineStatus wStateIdleBad 1 (some 15) 0).saved = wStateIdleBad.saved) ∧
    _loadStats .missing = [] ∧ _loadStats (.present .empty) = [] :=
  ⟨c7_persistence_write_through.1 wStateRun 1 (some 2) 0 rfl rfl,
   c7_persistence_write_through.2.1 wStateRun ⟨0, 1, some 5, 60⟩ 100 rfl rfl,
   c7_persistence_write_through.2.2.1 wStateIdleBad 1
     ⟨1, "Pralnik 10kg #1", some 0, false, none, none⟩ 15 0 rfl rfl (by decide) rfl,
   c7_persistence_write_through.2.2.2⟩

theorem clearedTimers_eq_some {s : EngineState} {c tid : Nat}
    (h : s.stopTimers c = some tid) :
    clearedTimers s c = s.liveTimers.filter (fun t => t.tid ≠ tid) := by
  unfold clearedTimers
  rw [h]

theorem clearedTimers_eq_none {s : EngineState} {c : Nat} (h : s.stopTimers c = none) :
    clearedTimers s c = s.liveTimers := by
  unfold clearedTimers
  rw [h]

theorem stop_le_start {ch : Nat} :
    MqttClient.stopThreshold ch ≤ MqttClient.startThreshold ch := by
  unfold MqttClient.stopThreshold MqttClient.startThreshold
  split_ifs <;> norm_num

/-- C5: a reading strictly above the start threshold on a known channel
starts an idle machine exactly once — one `machineStarted` event, fresh
`startedAt`/`lastStartedAt`, any pending stop timer cancelled, today's
start counter up by exactly one — while the same reading on an
already-running machine emits nothing and changes no stats. -/
theorem c5_start_exactly_once (s : EngineState) (ch : Nat) (m : Machine) (p : ℚ)
    (now : Int) (hm : s.machines ch = some m)
    (hp : qGt (some p) (MqttClient.startThreshold ch) = true) :
    (m.isRunning = false →
      (MqttClient.updateMachineStatus s ch (some p) now).events =
        s.events ++ [Event.machineStarted ch] ∧
      (MqttClient.updateMachineStatus s ch (some p) now).machines ch =
        some { m with
          power := some p
          isRunning := true
          startedAt := some now
          lastStartedAt := some now } ∧
      (MqttClient.updateMachineStatus s ch (some p) now).stopTimers ch = none ∧
      (∀ tid, s.stopTimers ch = some tid →
        tid ∉ ((MqttClient.updateMachineStatus s ch (some p) now).liveTimers.map Timer.tid)) ∧
      getBucket (MqttClient.updateMachineStatus s ch (some p) now).stats (_today now) ch =
        ⟨(getBucket s.stats (_today now) ch).starts + 1,
         (getBucket s.stats (_today now) ch).runtimeMs⟩) ∧
    (m.isRunning = true →
      (MqttClient.updateMachineStatus s ch (some p) now).events = s.events ∧
      (MqttClient.updateMachineStatus s ch (some p) now).stats = s.stats ∧
      (MqttClient.updateMachineStatus s ch (some p) now).machines ch =
        some { m with power := some p }) := by
  constructor
  · intro hr
    rw [MqttClient.updateMachineStatus_start hm hr hp]
    refine ⟨rfl, by simp, by simp, ?_, by simp [getBucket_bumpStarts_self]⟩
    intro tid htid
    simp only [clearedTimers, htid]
    intro hmem
    obtain ⟨t, htl, htt⟩ := List.mem_map.mp hmem
    have hf := List.mem_filter.mp htl
    simp only [decide_eq_true_eq] at hf
    exact hf.2 htt
  · intro hr
    rw [MqttClient.updateMachineStatus_already_running hm hr hp]
    exact ⟨rfl, rfl, by simp⟩

/-- Witness for C5: starting washer 1 at 15 W from the idle constructor
state, and the same reading on a running machine. -/
theorem c5_start_exactly_once_witness :
    ((MqttClient.updateMachineStatus wStateIdle 1 (some 15) 0).events =
        wStateIdle.events ++ [Event.machineStarted 1] ∧
      (MqttClient.updateMachineStatus wStateIdle 1 (some 15) 0).machines 1 =
        some { (⟨1, "Pralnik 10kg #1", some 0, false, none, none⟩ : Machine) with
          power := some 15
          isRunning := true
          startedAt := some 0
          lastStartedAt := some 0 } ∧
      (MqttClient.updateMachineStatus wStateIdle 1 (some 15) 0).stopTimers 1 = none ∧
      (∀ tid, wStateIdle.stopTimers 1 = some tid →
        tid ∉ ((MqttClient.updateMachineStatus wStateIdle 1 (some 15) 0).liveTimers.map
          Timer.tid)) ∧
      getBucket (MqttClient.updateMachineStatus wStateIdle 1 (some 15) 0).stats (_today 0) 1 =
        ⟨(getBucket wStateIdle.stats (_today 0) 1).starts + 1,
         (getBucket wStateIdle.stats (_today 0) 1).runtimeMs⟩) ∧
    ((MqttClient.updateMachineStatus wStateRun 1 (some 15) 7).events = wStateRun.events ∧
      (MqttClient.updateMachineStatus wStateRun 1 (some 15) 7).stats = wStateRun.stats ∧
      (MqttClient.updateMachineStatus wStateRun 1 (some 15) 7).machines 1 =
        some { wMachineRun with power := some 15 }) :=
  ⟨(c5_start_exactly_once wStateIdle 1 ⟨1, "Pralnik 10kg #1", some 0, false, none, none⟩
      15 0 rfl (by decide)).1 rfl,
   (c5_start_exactly_once wStateRun 1 wMachineRun 15 7 rfl (by decide)).2 rfl⟩

/-- C3: a running machine that dips below the stop threshold (arming the
debounce timer) and then reads above the start threshold before the
window elapses goes through the whole episode with zero events, no stats
change, an unchanged `startedAt`, and the armed timer actually removed
from the scheduler (cancelled, not merely ignored). -/
theorem c3_run_continuity (s : EngineState) (ch : Nat) (m : Machine) (p1 p2 : ℚ)
    (t1 t2 : Int) (hm : s.machines ch = some m) (hr : m.isRunning = true)
    (ht : s.stopTimers ch = none)
    (hfresh : ∀ t ∈ s.liveTimers, t.tid < s.nextTid)
    (h1 : qLt (some p1) (MqttClient.stopThreshold ch) = true)
    (h2 : qGt (some p2) (MqttClient.startThreshold ch) = true)
    (hwin : t2 < t1 + 60000) :
    (MqttClient.updateMachineStatus
        (MqttClient.updateMachineStatus s ch (some p1) t1) ch (some p2) t2).events =
      s.events ∧
    (MqttClient.updateMachineStatus
        (MqttClient.updateMachineStatus s ch (some p1) t1) ch (some p2) t2).stats =
      s.stats ∧
    (MqttClient.updateMachineStatus
        (MqttClient.updateMachineStatus s ch (some p1) t1) ch (some p2) t2).machines ch =
      some { m with power := some p2 } ∧
    (MqttClient.updateMachineStatus
        (MqttClient.updateMachineStatus s ch (some p1) t1) ch (some p2) t2).stopTimers ch =
      none ∧
    (MqttClient.updateMachineStatus
        (MqttClient.updateMachineStatus s ch (some p1) t1) ch (some p2) t2).liveTimers =
      s.liveTimers := by
  have hp1 : p1 < MqttClient.stopThreshold ch := by simpa [qLt] using h1
  have hgt1 : qGt (some p1) (MqttClient.startThreshold ch) = false := by
    simp only [qGt, decide_eq_false_iff_not]
    exact not_lt.mpr (le_of_lt (lt_of_lt_of_le hp1 stop_le_start))
  rw [MqttClient.updateMachineStatus_arm hm hr hgt1 h1 ht]
  have hm2 :
      ({ machines := fun c => if c = ch then some { m with power := some p1 }
           else s.machines c,
         stopTimers := fun c => if c = ch then some s.nextTid else s.stopTimers c,
         liveTimers := s.liveTimers ++ [⟨s.nextTid, ch, m.startedAt, t1 + 60000⟩],
         nextTid := s.nextTid + 1,
         stats := s.stats, saved := s.saved, diskOk := s.diskOk,
         events := s.events } : EngineState).machines ch =
        some { m with power := some p1 } := by simp
  rw [MqttClient.updateMachineStatus_already_running hm2 hr h2]
  refine ⟨rfl, rfl, by simp, by simp, ?_⟩
  rw [clearedTimers_eq_some (by simp; rfl)]
  rw [List.filter_append]
  have hone : List.filter (fun t => decide (t.tid ≠ s.nextTid))
      [(⟨s.nextTid, ch, m.startedAt, t1 + 60000⟩ : Timer)] = [] := by simp
  have hall : List.filter (fun t => decide (t.tid ≠ s.nextTid)) s.liveTimers =
      s.liveTimers := by
    rw [List.filter_eq_self]
    intro t htl
    simpa using Nat.ne_of_lt (hfresh t htl)
  rw [hone, hall, List.append_nil]

/-- Witness for C3: washer 1 running, a 2 W dip at t = 100 followed by a
20 W reading at t = 30100, inside the one-minute window. -/
theorem c3_run_continuity_witness :
    (MqttClient.updateMachineStatus
        (MqttClient.updateMachineStatus wStateRun 1 (some 2) 100) 1 (some 20) 30100).events =
      wStateRun.events ∧
    (MqttClient.updateMachineStatus
        (MqttClient.updateMachineStatus wStateRun 1 (some 2) 100) 1 (some 20) 30100).stats =
      wStateRun.stats ∧
    (MqttClient.updateMachineStatus
        (MqttClient.updateMachineStatus wStateRun 1 (some 2) 100) 1 (some 20) 30100).machines 1 =
      some { wMachineRun with power := some 20 } ∧
    (MqttClient.updateMachineStatus
        (MqttClient.updateMachineStatus wStateRun 1 (some 2) 100) 1 (some 20) 30100).stopTimers 1 =
      none ∧
    (MqttClient.updateMachineStatus
        (MqttClient.updateMachineStatus wStateRun 1 (some 2) 100) 1 (some 20) 30100).liveTimers =
      wStateRun.liveTimers :=
  c3_run_continuity wStateRun 1 wMachineRun 2 20 100 30100 rfl rfl rfl
    (by simp [wStateRun]) (by decide) (by decide) (by decide)

theorem ums_fold_passive (ch : Nat) (tid : Nat) (ps : List (ℚ × Int)) :
    ∀ (s : EngineState) (m : Machine),
      s.machines ch = some m →
      s.stopTimers ch = some tid →
      (∀ q ∈ ps, qGt (some q.1) (MqttClient.startThreshold ch) = false) →
      ∃ m2 : Machine,
        ps.foldl (fun acc q => MqttClient.updateMachineStatus acc ch (some q.1) q.2) s =
          { s with machines := fun c => if c = ch then some m2 else s.machines c } ∧
        m2.isRunning = m.isRunning ∧ m2.startedAt = m.startedAt := by
  induction ps with
  | nil =>
      intro s m hm ht _
      refine ⟨m, ?_, rfl, rfl⟩
      ext <;> simp <;> (try split_ifs) <;> simp_all
  | cons q rest ih =>
      intro s m hm ht hall
      have hq := hall q (by simp)
      have hstep : MqttClient.updateMachineStatus s ch (some q.1) q.2 =
          setMachine s ch { m with power := some q.1 } :=
        MqttClient.updateMachineStatus_timer_already hm hq (by rw [ht]; rfl) q.2
      rw [List.foldl_cons, hstep]
      obtain ⟨m2, hrec, hrun, hsta⟩ := ih (setMachine s ch { m with power := some q.1 })
        { m with power := some q.1 }
        (by simp [setMachine]) (by simpa [setMachine] using ht)
        (fun q' hq' => hall q' (by simp [hq']))
      refine ⟨m2, ?_, hrun, hsta⟩
      rw [hrec]
      ext <;> simp [setMachine] <;> (try split_ifs) <;> simp_all

set_option maxRecDepth 4000 in
/-- C4: if a running machine's reading falls below the stop threshold
and every reading until the debounce deadline stays at or below the
start threshold, then when the armed timer fires exactly one
`machineStopped` event is emitted, the machine becomes idle with
`startedAt` cleared, the pending timer slot is cleared, and today's
runtime accumulator grows by exactly (fire time − the `startedAt`
captured when the timer was armed). -/
theorem c4_sustained_stop (s : EngineState) (ch : Nat) (m : Machine) (st : Int)
    (p1 : ℚ) (t1 : Int) (ps : List (ℚ × Int))
    (hm : s.machines ch = some m) (hr : m.isRunning = true)
    (hst : m.startedAt = some st) (ht : s.stopTimers ch = none)
    (h1 : qLt (some p1) (MqttClient.stopThreshold ch) = true)
    (hps : ∀ q ∈ ps, qGt (some q.1) (MqttClient.startThreshold ch) = false) :
    (⟨s.nextTid, ch, some st, t1 + 60000⟩ : Timer) ∈
      (ps.foldl (fun acc q => MqttClient.updateMachineStatus acc ch (some q.1) q.2)
        (MqttClient.updateMachineStatus s ch (some p1) t1)).liveTimers ∧
    (fireTimer
        (ps.foldl (fun acc q => MqttClient.updateMachineStatus acc ch (some q.1) q.2)
          (MqttClient.updateMachineStatus s ch (some p1) t1))
        ⟨s.nextTid, ch, some st, t1 + 60000⟩ (t1 + 60000)).events =
      s.events ++ [Event.machineStopped ch] ∧
    (∃ m3, (fireTimer
        (ps.foldl (fun acc q => MqttClient.updateMachineStatus acc ch (some q.1) q.2)
          (MqttClient.updateMachineStatus s ch (some p1) t1))
        ⟨s.nextTid, ch, some st, t1 + 60000⟩ (t1 + 60000)).machines ch = some m3 ∧
      m3.isRunning = false ∧ m3.startedAt = none) ∧
    getBucket (fireTimer
        (ps.foldl (fun acc q => MqttClient.updateMachineStatus acc ch (some q.1) q.2)
          (MqttClient.updateMachineStatus s ch (some p1) t1))
        ⟨s.nextTid, ch, some st, t1 + 60000⟩ (t1 + 60000)).stats (_today (t1 + 60000)) ch =
      ⟨(getBucket s.stats (_today (t1 + 60000)) ch).starts,
       (getBucket s.stats (_today (t1 + 60000)) ch).runtimeMs + ((t1 + 60000) - st)⟩ ∧
    (fireTimer
        (ps.foldl (fun acc q => MqttClient.updateMachineStatus acc ch (some q.1) q.2)
          (MqttClient.updateMachineStatus s ch (some p1) t1))
        ⟨s.nextTid, ch, some st, t1 + 60000⟩ (t1 + 60000)).stopTimers ch = none := by
  have hp1 : p1 < MqttClient.stopThreshold ch := by simpa [qLt] using h1
  have hgt1 : qGt (some p1) (MqttClient.startThreshold ch) = false := by
    simp only [qGt, decide_eq_false_iff_not]
    exact not_lt.mpr (le_of_lt (lt_of_lt_of_le hp1 stop_le_start))
  have hs1 := MqttClient.updateMachineStatus_arm hm hr hgt1 h1 ht t1
  have hm1 : (MqttClient.updateMachineStatus s ch (some p1) t1).machines ch =
      some { m with power := some p1 } := by
    rw [hs1]
    simp
  have ht1v : (MqttClient.updateMachineStatus s ch (some p1) t1).stopTimers ch =
      some s.nextTid := by
    rw [hs1]
    simp
  obtain ⟨m2, hrec, hrun, hsta⟩ := ums_fold_passive ch s.nextTid ps
    (MqttClient.updateMachineStatus s ch (some p1) t1) { m with power := some p1 }
    hm1 ht1v hps
  rw [hrec]
  have hmach : ({ MqttClient.updateMachineStatus s ch (some p1) t1 with
      machines := fun c => if c = ch then some m2
        else (MqttClient.updateMachineStatus s ch (some p1) t1).machines c } :
      EngineState).machines ch = some m2 := by simp
  rw [fireTimer_eq rfl hmach]
  refine ⟨?_, ?_, ⟨{ m2 with isRunning := false, startedAt := none }, by simp, rfl, rfl⟩,
    ?_, ?_⟩
  · show (⟨s.nextTid, ch, some st, t1 + 60000⟩ : Timer) ∈
      (MqttClient.updateMachineStatus s ch (some p1) t1).liveTimers
    rw [hs1, hst]
    simp
  · show (MqttClient.updateMachineStatus s ch (some p1) t1).events ++
      [Event.machineStopped ch] = s.events ++ [Event.machineStopped ch]
    rw [hs1]
  · show getBucket (addRuntime (MqttClient.updateMachineStatus s ch (some p1) t1).stats
        (_today (t1 + 60000)) ch (t1 + 60000 - st)) (_today (t1 + 60000)) ch = _
    rw [hs1]
    simp [getBucket_addRuntime_self]
  · simp

/-- Witness for C4: washer 1 running since t = 5 dips to 2 W at t = 100
with no further readings; the timer fires at t = 60100 and books 60095
ms of runtime. -/
theorem c4_sustained_stop_witness :
    (⟨0, 1, some 5, 100 + 60000⟩ : Timer) ∈
      (([] : List (ℚ × Int)).foldl
        (fun acc q => MqttClient.updateMachineStatus acc 1 (some q.1) q.2)
        (MqttClient.updateMachineStatus wStateRun 1 (some 2) 100)).liveTimers ∧
    (fireTimer
        (([] : List (ℚ × Int)).foldl
          (fun acc q => MqttClient.updateMachineStatus acc 1 (some q.1) q.2)
          (MqttClient.updateMachineStatus wStateRun 1 (some 2) 100))
        ⟨0, 1, some 5, 100 + 60000⟩ (100 + 60000)).events =
      wStateRun.events ++ [Event.machineStopped 1] ∧
    (∃ m3, (fireTimer
        (([] : List (ℚ × Int)).foldl
          (fun acc q => MqttClient.updateMachineStatus acc 1 (some q.1) q.2)
          (MqttClient.updateMachineStatus wStateRun 1 (some 2) 100))
        ⟨0, 1, some 5, 100 + 60000⟩ (100 + 60000)).machines 1 = some m3 ∧
      m3.isRunning = false ∧ m3.startedAt = none) ∧
    getBucket (fireTimer
        (([] : List (ℚ × Int)).foldl
          (fun acc q => MqttClient.updateMachineStatus acc 1 (some q.1) q.2)
          (MqttClient.updateMachineStatus wStateRun 1 (some 2) 100))
        ⟨0, 1, some 5, 100 + 60000⟩ (100 + 60000)).stats (_today (100 + 60000)) 1 =
      ⟨(getBucket wStateRun.stats (_today (100 + 60000)) 1).starts,
       (getBucket wStateRun.stats (_today (100 + 60000)) 1).runtimeMs + ((100 + 60000) - 5)⟩ ∧
    (fireTimer
        (([] : List (ℚ × Int)).foldl
          (fun acc q => MqttClient.updateMachineStatus acc 1 (some q.1) q.2)
          (MqttClient.updateMachineStatus wStateRun 1 (some 2) 100))
        ⟨0, 1, some 5, 100 + 60000⟩ (100 + 60000)).stopTimers 1 = none :=
  c4_sustained_stop wStateRun 1 wMachineRun 5 2 100 [] rfl rfl rfl rfl (by decide)
    (by simp)

theorem _setMachineRunning_stopTimers_ne {s : EngineState} {id c : Nat} {r : Bool}
    {now : Int} (hne : c ≠ id) :
    (MqttClientPairs._setMachineRunning s id r now).stopTimers c = s.stopTimers c := by
  unfold MqttClientPairs._setMachineRunning
  cases hm : s.machines id with
  | none => rfl
  | some m =>
    cases r with
    | true =>
      by_cases hr : m.isRunning = true
      · simp [hr, clearStopTimer_stopTimers, hne]
      · have hr' : m.isRunning = false := by simpa using hr
        simp [hr', clearStopTimer_stopTimers, hne, _saveStats, setMachine, apply_ite]
    | false =>
      by_cases hg : (m.isRunning && (s.stopTimers id).isNone) = true
      · simp [hg, armStopTimer, hne]
      · have hg' : (m.isRunning && (s.stopTimers id).isNone) = false :=
          Bool.not_eq_true _ ▸ eq_false_of_ne_true hg
        simp [hg']

theorem _setMachineRunning_machines_ne {s : EngineState} {id c : Nat} {r : Bool}
    {now : Int} (hne : c ≠ id) :
    (MqttClientPairs._setMachineRunning s id r now).machines c = s.machines c := by
  unfold MqttClientPairs._setMachineRunning
  cases hm : s.machines id with
  | none => rfl
  | some m =>
    cases r with
    | true =>
      by_cases hr : m.isRunning = true
      · simp [hr, clearStopTimer_machines]
      · have hr' : m.isRunning = false := by simpa using hr
        simp [hr', clearStopTimer_machines, hne, _saveStats, setMachine, apply_ite]
    | false =>
      by_cases hg : (m.isRunning && (s.stopTimers id).isNone) = true
      · simp [hg, armStopTimer]
      · have hg' : (m.isRunning && (s.stopTimers id).isNone) = false :=
          Bool.not_eq_true _ ▸ eq_false_of_ne_true hg
        simp [hg']

theorem updateDryerPair_tail_arms {s2 : EngineState} {now : Int}
    (hm : ∃ mm : Machine, s2.machines 5 = some mm ∧ mm.isRunning = true)
    (ht : s2.stopTimers 5 = none) (stopped : Bool) :
    (if stopped = true then
        MqttClientPairs._setMachineRunning
          (MqttClientPairs._setMachineRunning
            (MqttClientPairs._setMachineRunning
              (MqttClientPairs._setMachineRunning s2 5 false now) 6 false now)
            5 false now) 6 false now
      else
        MqttClientPairs._setMachineRunning
          (MqttClientPairs._setMachineRunning s2 5 false now) 6 false now).stopTimers 5 ≠
      none := by
  obtain ⟨mm, hmm, hrr⟩ := hm
  have h56 : (5 : Nat) ≠ 6 := by decide
  have harm := MqttClientPairs._setMachineRunning_false_arm hmm hrr ht now
  have hAt : (MqttClientPairs._setMachineRunning s2 5 false now).stopTimers 5 =
      some s2.nextTid := by
    rw [harm]
    simp [armStopTimer]
  have hAm : (MqttClientPairs._setMachineRunning s2 5 false now).machines 5 =
      some mm := by
    rw [harm]
    simpa [armStopTimer] using hmm
  have hBt : (MqttClientPairs._setMachineRunning
      (MqttClientPairs._setMachineRunning s2 5 false now) 6 false now).stopTimers 5 =
      some s2.nextTid := by
    rw [_setMachineRunning_stopTimers_ne h56, hAt]
  have hBm : (MqttClientPairs._setMachineRunning
      (MqttClientPairs._setMachineRunning s2 5 false now) 6 false now).machines 5 =
      some mm := by
    rw [_setMachineRunning_machines_ne h56, hAm]
  cases stopped with
  | false =>
      simp only [Bool.false_eq_true, if_false]
      rw [hBt]
      simp
  | true =>
      simp only [if_true]
      rw [_setMachineRunning_stopTimers_ne h56,
        MqttClientPairs._setMachineRunning_false_timer hBm (by rw [hBt]; rfl) now, hBt]
      simp

/-- C1 counterexample: on the dual-occupancy pair, a 70 W reading —
at or above the pair's 50 W stop threshold — arriving while the first
virtual dryer is running with no timer armed DOES arm a stop-debounce
timer for it (`updateDryerPair` passes `anyRunning = power > 100`
straight to `_setMachineRunning`, so the whole 50–100 W dead band drives
the unit toward stop). -/
theorem c1_counterexample :
    (50 : ℚ) ≤ 70 ∧ (70 : ℚ) ≤ 100 ∧
    (cex1_s1.machines 5).map Machine.isRunning = some true ∧
    cex1_s1.stopTimers 5 = none ∧
    cex1_s2.stopTimers 5 = some 0 ∧
    cex1_s2.liveTimers.length = 1 := by
  refine ⟨by decide, by decide, ?_, ?_, ?_, ?_⟩ <;> decide

/-- C1 (amended): for a simple channel's machine the claim holds — a
reading at or above the channel's stop threshold arms no stop timer
(every live timer afterwards was already live).  For a dual-occupancy
pair, however, the first virtual unit's stop timer is armed by any
reading with power at or below the pair's start threshold (100 W), so in
particular a reading inside the 50–100 W dead band does arm a stop
timer for a running first unit. -/
theorem c1_amended_stop_timer_arming (s : EngineState) (ch : Nat) (m : Machine)
    (p : ℚ) (cur : Option ℚ) (now : Int) :
    (s.machines ch = some m → MqttClient.stopThreshold ch ≤ p →
      ∀ t ∈ (MqttClient.updateMachineStatus s ch (some p) now).liveTimers,
        t ∈ s.liveTimers) ∧
    (s.machines 5 = some m → m.isRunning = true → s.stopTimers 5 = none → p ≤ 100 →
      (MqttClientPairs.updateDryerPair s 5 p cur now).stopTimers 5 ≠ none) := by
  constructor
  · intro hm hp
    have hsub : ∀ t ∈ clearedTimers s ch, t ∈ s.liveTimers := by
      intro t htl
      cases hstv : s.stopTimers ch with
      | none =>
          rw [clearedTimers_eq_none hstv] at htl
          exact htl
      | some tid =>
          rw [clearedTimers_eq_some hstv] at htl
          exact (List.mem_filter.mp htl).1
    have hlt : qLt (some p) (MqttClient.stopThreshold ch) = false := by
      simp only [qLt, decide_eq_false_iff_not]
      exact not_lt.mpr hp
    by_cases hgt : qGt (some p) (MqttClient.startThreshold ch) = true
    · by_cases hr : m.isRunning = true
      · rw [MqttClient.updateMachineStatus_already_running hm hr hgt]
        exact hsub
      · have hr' : m.isRunning = false := by simpa using hr
        rw [MqttClient.updateMachineStatus_start hm hr' hgt]
        exact hsub
    · have hgt' : qGt (some p) (MqttClient.startThreshold ch) = false := by
        simpa using hgt
      rw [MqttClient.updateMachineStatus_power_only hm hgt' (by simp [hlt])]
      intro t htl
      simpa [setMachine] using htl
  · intro hm5 hr ht5 hp
    have hany : decide ((100 : ℚ) < p) = false := decide_eq_false (not_lt.mpr hp)
    have h65 : (6 : Nat) ≠ 5 := by decide
    unfold MqttClientPairs.updateDryerPair
    rw [show MqttClientPairs.DRYER_CHANNEL_MAP 5 = some (5, 6) from rfl]
    simp only [hany, Bool.false_and, hm5]
    rw [setMachine_machines_ne h65]
    cases hm6 : s.machines 6 with
    | none =>
        exact updateDryerPair_tail_arms
          (by exact ⟨{ m with power := some p }, rfl, hr⟩) (by exact ht5) _
    | some m6 =>
        exact updateDryerPair_tail_arms
          (by exact ⟨{ m with power := some p }, rfl, hr⟩) (by exact ht5) _

/-- Witness for C1 (amended): a 7 W dead-band reading on running washer
1 adds no timer, and a 70 W dead-band reading on the running first
virtual dryer leaves a stop timer armed. -/
theorem c1_amended_stop_timer_arming_witness :
    (∀ t ∈ (MqttClient.updateMachineStatus wStateRun 1 (some 7) 0).liveTimers,
        t ∈ wStateRun.liveTimers) ∧
    (MqttClientPairs.updateDryerPair cex1_s1 5 70 none 1000).stopTimers 5 ≠ none :=
  ⟨(c1_amended_stop_timer_arming wStateRun 1 wMachineRun 7 none 0).1 rfl (by decide),
   (c1_amended_stop_timer_arming cex1_s1 5 ⟨5, "Sušilnik A1", some 120, true, some 0, some 0⟩
      70 none 1000).2 (by decide) rfl (by decide) (by decide)⟩

/-- C2: a dual-occupancy reading above the pair's 100 W start threshold
starts the first virtual dryer; the second starts too exactly when a
current value is present and at or above the 3.5 A dual-occupancy
threshold, each idle unit stamping its own `startedAt`; with current
absent or below threshold only the first unit starts, the second is left
idle, and only one `machineStarted` is emitted. -/
theorem c2_dual_occupancy_start (s : EngineState) (m5 m6 : Machine) (p : ℚ)
    (cur : Option ℚ) (now : Int)
    (h5 : s.machines 5 = some m5) (h6 : s.machines 6 = some m6)
    (hi5 : m5.isRunning = false) (hi6 : m6.isRunning = false)
    (hp : 100 < p) :
    (∀ c : ℚ, cur = some c → MqttClientPairs.DRYER_DUAL_CURRENT_THRESHOLD ≤ c →
      ∃ n5 n6,
        (MqttClientPairs.updateDryerPair s 5 p cur now).machines 5 = some n5 ∧
        (MqttClientPairs.updateDryerPair s 5 p cur now).machines 6 = some n6 ∧
        n5.isRunning = true ∧ n5.startedAt = some now ∧
        n6.isRunning = true ∧ n6.startedAt = some now ∧
        (MqttClientPairs.updateDryerPair s 5 p cur now).events =
          s.events ++ [Event.machineStarted 5, Event.machineStarted 6]) ∧
    ((cur = none ∨
        ∃ c : ℚ, cur = some c ∧ c < MqttClientPairs.DRYER_DUAL_CURRENT_THRESHOLD) →
      ∃ n5 n6,
        (MqttClientPairs.updateDryerPair s 5 p cur now).machines 5 = some n5 ∧
        (MqttClientPairs.updateDryerPair s 5 p cur now).machines 6 = some n6 ∧
        n5.isRunning = true ∧ n5.startedAt = some now ∧
        n6.isRunning = false ∧ n6.startedAt = m6.startedAt ∧
        (MqttClientPairs.updateDryerPair s 5 p cur now).events =
          s.events ++ [Event.machineStarted 5]) := by
  have hany : decide ((100 : ℚ) < p) = true := decide_eq_true hp
  have h50 : (50 : ℚ) < p := lt_trans (by norm_num) hp
  have hstop : decide (p < (50 : ℚ)) = false := decide_eq_false (not_lt.mpr h50.le)
  have h65 : (6 : Nat) ≠ 5 := by decide
  have hrw1 := MqttClientPairs._setMachineRunning_start
    (show (setMachine (setMachine s 5 { m5 with power := some p }) 6
        { m6 with power := some p }).machines 5 = some { m5 with power := some p }
      from rfl)
    (show ({ m5 with power := some p }).isRunning = false from hi5) now
  constructor
  · intro c hcur hcc
    subst hcur
    have hboth : decide (MqttClientPairs.DRYER_DUAL_CURRENT_THRESHOLD ≤ c) = true :=
      decide_eq_true hcc
    unfold MqttClientPairs.updateDryerPair
    rw [show MqttClientPairs.DRYER_CHANNEL_MAP 5 = some (5, 6) from rfl]
    simp only [hany, hboth, hstop, Bool.true_and, Bool.false_eq_true, if_false, h5]
    rw [setMachine_machines_ne h65]
    simp only [h6]
    rw [hrw1]
    rw [MqttClientPairs._setMachineRunning_start (by rfl) (by exact hi6) now]
    refine ⟨{ m5 with power := some p, isRunning := true, startedAt := some now, lastStartedAt := some now },
      { m6 with power := some p, isRunning := true, startedAt := some now, lastStartedAt := some now },
      by simp [setMachine], by simp [setMachine], rfl, rfl, rfl, rfl,
      by simp [setMachine]⟩
  · intro hcur
    rcases hcur with hnone | ⟨c, hc, hlt⟩
    · subst hnone
      unfold MqttClientPairs.updateDryerPair
      rw [show MqttClientPairs.DRYER_CHANNEL_MAP 5 = some (5, 6) from rfl]
      simp only [hany, hstop, Bool.true_and, Bool.and_false, Bool.false_eq_true,
        if_false, h5]
      rw [setMachine_machines_ne h65]
      simp only [h6]
      rw [hrw1]
      rw [MqttClientPairs._setMachineRunning_false_idle (by rfl) (by exact hi6) now]
      refine ⟨{ m5 with power := some p, isRunning := true, startedAt := some now, lastStartedAt := some now },
        { m6 with power := some p },
        by simp [setMachine], by simp [setMachine], rfl, rfl, ?_, ?_,
        by simp [setMachine]⟩
      · exact hi6
      · rfl
    · subst hc
      have hbothc : decide (MqttClientPairs.DRYER_DUAL_CURRENT_THRESHOLD ≤ c) = false := by
        simp only [decide_eq_false_iff_not]
        exact not_le.mpr hlt
      unfold MqttClientPairs.updateDryerPair
      rw [show MqttClientPairs.DRYER_CHANNEL_MAP 5 = some (5, 6) from rfl]
      simp only [hany, hbothc, hstop, Bool.true_and, Bool.and_false, Bool.false_eq_true,
        if_false, h5]
      rw [setMachine_machines_ne h65]
      simp only [h6]
      rw [hrw1]
      rw [MqttClientPairs._setMachineRunning_false_idle (by rfl) (by exact hi6) now]
      refine ⟨{ m5 with power := some p, isRunning := true, startedAt := some now, lastStartedAt := some now },
        { m6 with power := some p },
        by simp [setMachine], by simp [setMachine], rfl, rfl, ?_, ?_,
        by simp [setMachine]⟩
      · exact hi6
      · rfl

/-- Witness for C2: the spec's own scenario — 240 W at 4.0 A starts both
virtual dryers of pair A; 120 W at 2.0 A starts only the first. -/
theorem c2_dual_occupancy_start_witness :
    (∃ n5 n6,
      (MqttClientPairs.updateDryerPair wStatePairsIdle 5 240 (some 4) 7).machines 5 =
        some n5 ∧
      (MqttClientPairs.updateDryerPair wStatePairsIdle 5 240 (some 4) 7).machines 6 =
        some n6 ∧
      n5.isRunning = true ∧ n5.startedAt = some 7 ∧
      n6.isRunning = true ∧ n6.startedAt = some 7 ∧
      (MqttClientPairs.updateDryerPair wStatePairsIdle 5 240 (some 4) 7).events =
        wStatePairsIdle.events ++ [Event.machineStarted 5, Event.machineStarted 6]) ∧
    (∃ n5 n6,
      (MqttClientPairs.updateDryerPair wStatePairsIdle 5 120 (some 2) 3).machines 5 =
        some n5 ∧
      (MqttClientPairs.updateDryerPair wStatePairsIdle 5 120 (some 2) 3).machines 6 =
        some n6 ∧
      n5.isRunning = true ∧ n5.startedAt = some 3 ∧
      n6.isRunning = false ∧ n6.startedAt = none ∧
      (MqttClientPairs.updateDryerPair wStatePairsIdle 5 120 (some 2) 3).events =
        wStatePairsIdle.events ++ [Event.machineStarted 5]) :=
  ⟨(c2_dual_occupancy_start wStatePairsIdle
      ⟨5, "Sušilnik A1", some 0, false, none, none⟩
      ⟨6, "Sušilnik A2", some 0, false, none, none⟩ 240 (some 4) 7
      rfl rfl rfl rfl (by decide)).1 4 rfl (by decide : mkRat 7 2 ≤ 4),
   (c2_dual_occupancy_start wStatePairsIdle
      ⟨5, "Sušilnik A1", some 0, false, none, none⟩
      ⟨6, "Sušilnik A2", some 0, false, none, none⟩ 120 (some 2) 3
      rfl rfl rfl rfl (by decide)).2 (Or.inr ⟨2, rfl, (by decide : (2 : ℚ) < mkRat 7 2)⟩)⟩

theorem map_tid_eq_singleton {l : List Timer} {a : Nat}
    (h : l.map Timer.tid = [a]) : ∃ x, l = [x] ∧ x.tid = a := by
  cases l with
  | nil => simp at h
  | cons x xs =>
      simp only [List.map_cons, List.cons.injEq] at h
      obtain ⟨h1, h2⟩ := h
      have hx : xs = [] := List.map_eq_nil_iff.mp h2
      exact ⟨x, by rw [hx], h1⟩

theorem filter_chan_of_cleared {s : EngineState} {c : Nat}
    (h3 : (chanTimers s c).map Timer.tid = (s.stopTimers c).toList) :
    (clearedTimers s c).filter (fun t => t.chan = c) = [] := by
  cases hst : s.stopTimers c with
  | none =>
      rw [clearedTimers_eq_none hst]
      rw [hst] at h3
      have h3n : List.map Timer.tid (chanTimers s c) = [] := by simpa using h3
      have hnil : chanTimers s c = [] := List.map_eq_nil_iff.mp h3n
      simpa [chanTimers] using hnil
  | some tid =>
      rw [clearedTimers_eq_some hst]
      rw [hst] at h3
      obtain ⟨t0, ht0, htid⟩ := map_tid_eq_singleton (by simpa using h3)
      rw [List.filter_filter, List.filter_eq_nil_iff]
      intro t htl hcomb
      simp only [Bool.and_eq_true, decide_eq_true_eq] at hcomb
      obtain ⟨hchan, hne⟩ := hcomb
      have htc : t ∈ chanTimers s c :=
        List.mem_filter.mpr ⟨htl, by simpa using hchan⟩
      rw [ht0] at htc
      have hteq : t = t0 := by simpa using htc
      exact hne (hteq ▸ htid)

theorem filter_chan_of_cleared_ne {s : EngineState} {c c2 : Nat} (hcc : c2 ≠ c)
    (h2 : (s.liveTimers.map Timer.tid).Nodup)
    (h3 : (chanTimers s c).map Timer.tid = (s.stopTimers c).toList) :
    (clearedTimers s c).filter (fun t => t.chan = c2) =
      s.liveTimers.filter (fun t => t.chan = c2) := by
  cases hst : s.stopTimers c with
  | none => rw [clearedTimers_eq_none hst]
  | some tid =>
      rw [clearedTimers_eq_some hst]
      rw [hst] at h3
      obtain ⟨t0, ht0, htid⟩ := map_tid_eq_singleton (by simpa using h3)
      have ht0c : t0 ∈ chanTimers s c := by
        rw [ht0]
        simp
      have ht0mem : t0 ∈ s.liveTimers := (List.mem_filter.mp ht0c).1
      have ht0chan : t0.chan = c := by simpa using (List.mem_filter.mp ht0c).2
      rw [List.filter_filter]
      refine List.filter_congr ?_
      intro t htl
      by_cases hc2 : t.chan = c2
      · have hnt : t.tid ≠ tid := by
          intro he
          have heq := List.inj_on_of_nodup_map h2 htl ht0mem (by rw [he, htid])
          rw [heq] at hc2
          exact hcc (hc2 ▸ ht0chan)
        simp [hc2, hnt]
      · simp [hc2]

theorem inv_of_components {s s2 : EngineState}
    (hl : s2.liveTimers = s.liveTimers) (hn : s2.nextTid = s.nextTid)
    (hst : s2.stopTimers = s.stopTimers)
    (hm : ∀ c, (s.machines c).isSome = true → (s2.machines c).isSome = true)
    (h : TimerInv s) : TimerInv s2 := by
  obtain ⟨h1, h2, h3, h4⟩ := h
  refine ⟨?_, ?_, ?_, ?_⟩
  · rw [hl, hn]
    exact h1
  · rw [hl]
    exact h2
  · intro c
    unfold chanTimers
    rw [hl, hst]
    exact h3 c
  · intro c hc
    rw [hst] at hc
    exact hm c (h4 c hc)

theorem inv_setMachine {s : EngineState} {c : Nat} {m : Machine}
    (h : TimerInv s) : TimerInv (setMachine s c m) := by
  refine inv_of_components ?_ ?_ ?_ ?_ h
  · rfl
  · rfl
  · rfl
  · intro c2 hc2
    by_cases hcc : c2 = c
    · subst hcc
      simp [setMachine]
    · simpa [setMachine, hcc] using hc2

theorem inv_clearStopTimer {s : EngineState} {c : Nat} (h : TimerInv s) :
    TimerInv (clearStopTimer s c) := by
  obtain ⟨h1, h2, h3, h4⟩ := h
  cases hst : s.stopTimers c with
  | none =>
      unfold clearStopTimer
      rw [hst]
      exact ⟨h1, h2, h3, h4⟩
  | some tid =>
      unfold clearStopTimer
      rw [hst]
      refine ⟨?_, ?_, ?_, ?_⟩
      · intro t htl
        exact h1 t (List.mem_filter.mp htl).1
      · exact List.Nodup.sublist ((List.filter_sublist _).map Timer.tid) h2
      · intro c2
        by_cases hcc : c2 = c
        · subst hcc
          have hB := filter_chan_of_cleared (h3 c2)
          rw [clearedTimers_eq_some hst] at hB
          unfold chanTimers
          simp only
          rw [hB]
          simp
        · have hC := filter_chan_of_cleared_ne hcc h2 (h3 c)
          rw [clearedTimers_eq_some hst] at hC
          unfold chanTimers
          simp only
          rw [hC]
          simpa [hcc] using h3 c2
      · intro c2 hc2
        by_cases hcc : c2 = c
        · subst hcc
          simp at hc2
        · apply h4
          simpa [hcc] using hc2

theorem inv_armStopTimer {s : EngineState} {c : Nat} {st : Option Int} {now : Int}
    (ht : s.stopTimers c = none) (hm : (s.machines c).isSome = true)
    (h : TimerInv s) : TimerInv (armStopTimer s c st now) := by
  obtain ⟨h1, h2, h3, h4⟩ := h
  have hempty : chanTimers s c = [] := by
    have h3c := h3 c
    rw [ht] at h3c
    have h3n : List.map Timer.tid (chanTimers s c) = [] := by simpa using h3c
    exact List.map_eq_nil_iff.mp h3n
  refine ⟨?_, ?_, ?_, ?_⟩
  · intro t htl
    rcases List.mem_append.mp htl with hmem | hmem
    · exact Nat.lt_succ_of_lt (h1 t hmem)
    · have ht' : t = ⟨s.nextTid, c, st, now + 60000⟩ := by simpa using hmem
      rw [ht']
      exact Nat.lt_succ_self _
  · show ((s.liveTimers ++ [(⟨s.nextTid, c, st, now + 60000⟩ : Timer)]).map Timer.tid).Nodup
    rw [List.map_append]
    rw [List.nodup_append]
    refine ⟨h2, by simp, ?_⟩
    intro a ha hb
    have hlt : a < s.nextTid := by
      obtain ⟨t, htl, htid⟩ := List.mem_map.mp ha
      rw [← htid]
      exact h1 t htl
    have hab : a = s.nextTid := by simpa using hb
    omega
  · intro c2
    unfold chanTimers
    show ((s.liveTimers ++ [(⟨s.nextTid, c, st, now + 60000⟩ : Timer)]).filter
        (fun t => t.chan = c2)).map Timer.tid =
      ((armStopTimer s c st now).stopTimers c2).toList
    rw [List.filter_append]
    by_cases hcc : c2 = c
    · subst hcc
      have hfe : s.liveTimers.filter (fun t => decide (t.chan = c2)) = [] := by
        simpa [chanTimers] using hempty
      rw [hfe]
      simp [armStopTimer]
    · have hfe : List.filter (fun t => decide (t.chan = c2))
          [(⟨s.nextTid, c, st, now + 60000⟩ : Timer)] = [] := by
        simp only [List.filter_cons, List.filter_nil]
        rw [if_neg]
        simp only [decide_eq_true_eq]
        intro hh
        exact hcc hh.symm
      rw [hfe]
      simpa [armStopTimer, hcc, chanTimers] using h3 c2
  · intro c2 hc2
    by_cases hcc : c2 = c
    · subst hcc
      exact hm
    · apply h4
      simpa [armStopTimer, hcc] using hc2

theorem fireTimer_liveTimers {s : EngineState} {t : Timer} {fn : Int} :
    (fireTimer s t fn).liveTimers = s.liveTimers.filter (fun t2 => t2.tid ≠ t.tid) := by
  unfold fireTimer
  by_cases hdk : s.diskOk = true <;>
    cases t.capturedStartedAt <;> cases hmc : s.machines t.chan <;>
      simp [_saveStats, setMachine, apply_ite, hmc, hdk]

theorem fireTimer_nextTid {s : EngineState} {t : Timer} {fn : Int} :
    (fireTimer s t fn).nextTid = s.nextTid := by
  unfold fireTimer
  by_cases hdk : s.diskOk = true <;>
    cases t.capturedStartedAt <;> cases hmc : s.machines t.chan <;>
      simp [_saveStats, setMachine, apply_ite, hmc, hdk]

theorem fireTimer_stopTimers {s : EngineState} {t : Timer} {fn : Int} :
    (fireTimer s t fn).stopTimers =
      fun c => if c = t.chan then none else s.stopTimers c := by
  funext c
  unfold fireTimer
  by_cases hdk : s.diskOk = true <;>
    cases t.capturedStartedAt <;> cases hmc : s.machines t.chan <;>
      simp [_saveStats, setMachine, apply_ite, hmc, hdk] <;>
      (try (split_ifs with hct <;> simp [hct]))

theorem fireTimer_machines_isSome {s : EngineState} {t : Timer} {fn : Int} {c : Nat}
    (h : (s.machines c).isSome = true) :
    ((fireTimer s t fn).machines c).isSome = true := by
  unfold fireTimer
  by_cases hdk : s.diskOk = true <;> by_cases hcc : c = t.chan <;>
    cases t.capturedStartedAt <;> cases hmc : s.machines t.chan <;>
      simp_all [_saveStats, setMachine, apply_ite, hmc, hcc, hdk]

theorem inv_fireTimer {s : EngineState} {t : Timer} {fn : Int}
    (htl : t ∈ s.liveTimers) (h : TimerInv s) : TimerInv (fireTimer s t fn) := by
  have hst : s.stopTimers t.chan = some t.tid := by
    obtain ⟨h1, h2, h3, h4⟩ := h
    have htc : t ∈ chanTimers s t.chan := List.mem_filter.mpr ⟨htl, by simp⟩
    have hmem : t.tid ∈ (s.stopTimers t.chan).toList := by
      rw [← h3 t.chan]
      exact List.mem_map_of_mem Timer.tid htc
    cases hstv : s.stopTimers t.chan with
    | none =>
        rw [hstv] at hmem
        simp at hmem
    | some tid2 =>
        rw [hstv] at hmem
        simp only [Option.toList_some, List.mem_singleton] at hmem
        rw [hmem]
  refine inv_of_components ?_ ?_ ?_ ?_ (inv_clearStopTimer (c := t.chan) h)
  · rw [fireTimer_liveTimers, clearStopTimer_liveTimers, clearedTimers_eq_some hst]
  · rw [fireTimer_nextTid, clearStopTimer_nextTid]
  · rw [fireTimer_stopTimers, clearStopTimer_stopTimers]
  · intro c hc
    rw [clearStopTimer_machines] at hc
    exact fireTimer_machines_isSome hc

theorem inv_setMachineRunning {s : EngineState} {id : Nat} {r : Bool} {now : Int}
    (h : TimerInv s) : TimerInv (MqttClientPairs._setMachineRunning s id r now) := by
  cases hm : s.machines id with
  | none => rw [MqttClientPairs._setMachineRunning_none hm]; exact h
  | some m =>
      cases r with
      | true =>
          by_cases hr : m.isRunning = true
          · rw [MqttClientPairs._setMachineRunning_true_running hm hr]
            exact inv_clearStopTimer h
          · have hr' : m.isRunning = false := by simpa using hr
            rw [MqttClientPairs._setMachineRunning_start hm hr' now]
            refine inv_of_components ?_ ?_ ?_ ?_ (inv_clearStopTimer (c := id) h)
            · rw [clearStopTimer_liveTimers]
            · rw [clearStopTimer_nextTid]
            · rw [clearStopTimer_stopTimers]
            · intro c hc
              rw [clearStopTimer_machines] at hc
              by_cases hcc : c = id
              · simp [hcc]
              · simpa [hcc] using hc
      | false =>
          by_cases hr : m.isRunning = true
          · by_cases hn : s.stopTimers id = none
            · rw [MqttClientPairs._setMachineRunning_false_arm hm hr hn now]
              exact inv_armStopTimer hn (by rw [hm]; rfl) h
            · have hsome : (s.stopTimers id).isSome = true := by
                cases hv : s.stopTimers id
                · exact absurd hv hn
                · rfl
              rw [MqttClientPairs._setMachineRunning_false_timer hm hsome now]
              exact h
          · have hr' : m.isRunning = false := by simpa using hr
            rw [MqttClientPairs._setMachineRunning_false_idle hm hr' now]
            exact h

theorem inv_updateMachineStatusP {s : EngineState} {ch : Nat} {p : Option ℚ} {now : Int}
    (h : TimerInv s) : TimerInv (MqttClientPairs.updateMachineStatus s ch p now) := by
  unfold MqttClientPairs.updateMachineStatus
  cases hm : s.machines ch with
  | none => exact h
  | some m =>
      dsimp only
      split_ifs with h1 h2
      · exact inv_setMachineRunning (inv_setMachine h)
      · exact inv_setMachineRunning (inv_setMachine h)
      · exact inv_setMachine h

theorem inv_updateDryerPair {s : EngineState} {pc : Nat} {p : ℚ} {cur : Option ℚ}
    {now : Int} (h : TimerInv s) :
    TimerInv (MqttClientPairs.updateDryerPair s pc p cur now) := by
  unfold MqttClientPairs.updateDryerPair
  cases hmap : MqttClientPairs.DRYER_CHANNEL_MAP pc with
  | none => exact h
  | some pr =>
      obtain ⟨id1, id2⟩ := pr
      dsimp only
      cases hm1 : s.machines id1 with
      | none =>
          cases hm2 : s.machines id2 with
          | none =>
              dsimp only
              split_ifs with hstp
              · exact inv_setMachineRunning (inv_setMachineRunning
                  (inv_setMachineRunning (inv_setMachineRunning h)))
              · exact inv_setMachineRunning (inv_setMachineRunning h)
          | some m2 =>
              dsimp only
              split_ifs with hstp
              · exact inv_setMachineRunning (inv_setMachineRunning
                  (inv_setMachineRunning (inv_setMachineRunning (inv_setMachine h))))
              · exact inv_setMachineRunning (inv_setMachineRunning (inv_setMachine h))
      | some m1 =>
          dsimp only
          cases hm2 : (setMachine s id1 { m1 with power := some p }).machines id2 with
          | none =>
              dsimp only
              split_ifs with hstp
              · exact inv_setMachineRunning (inv_setMachineRunning
                  (inv_setMachineRunning (inv_setMachineRunning (inv_setMachine h))))
              · exact inv_setMachineRunning (inv_setMachineRunning (inv_setMachine h))
          | some m2 =>
              dsimp only
              split_ifs with hstp
              · exact inv_setMachineRunning (inv_setMachineRunning
                  (inv_setMachineRunning (inv_setMachineRunning
                    (inv_setMachine (inv_setMachine h)))))
              · exact inv_setMachineRunning (inv_setMachineRunning
                  (inv_setMachine (inv_setMachine h)))

theorem foldl_preserve {α β : Type} {P : α → Prop} {f : α → β → α}
    (hf : ∀ a b, P a → P (f a b)) :
    ∀ (l : List β) (a : α), P a → P (l.foldl f a) := by
  intro l
  induction l with
  | nil => intro a ha; exact ha
  | cons b rest ih =>
      intro a ha
      rw [List.foldl_cons]
      exact ih _ (hf a b ha)

theorem inv_handleDeviceDataP {s : EngineState} {data : DeviceData} {now : Int}
    (h : TimerInv s) : TimerInv (MqttClientPairs.handleDeviceData s data now) := by
  unfold MqttClientPairs.handleDeviceData
  split_ifs with hshape
  · refine foldl_preserve ?_ _ _ h
    intro a kv ha
    split_ifs with hkey
    · cases emKeyChannel kv.1 with
      | none => exact ha
      | some channel =>
          cases kv.2.power with
          | none => exact ha
          | some power =>
              dsimp only
              split_ifs with hdcm
              · exact inv_updateDryerPair ha
              · exact inv_updateMachineStatusP ha
    · exact ha
  · cases data.channels with
    | some chans =>
        refine foldl_preserve ?_ _ _ h
        intro a ch ha
        cases ch.channel with
        | none => exact ha
        | some c => exact inv_updateMachineStatusP ha
    | none =>
        cases jsOrN data.channel data.Channel with
        | some c =>
            cases jsOrQ (jsOrQ (jsOrQ data.power data.Power) data.active_power)
                data.ActivePower with
            | some p => exact inv_updateMachineStatusP h
            | none =>
                cases data.energy with
                | some items =>
                    exact (foldl_preserve
                      (P := fun x : EngineState × Nat => TimerInv x.1)
                      (fun a b ha => inv_updateMachineStatusP ha) items (s, 0) h)
                | none => exact h
        | none =>
            cases jsOrQ (jsOrQ (jsOrQ data.power data.Power) data.active_power)
                data.ActivePower with
            | some p =>
                cases data.energy with
                | some items =>
                    exact (foldl_preserve
                      (P := fun x : EngineState × Nat => TimerInv x.1)
                      (fun a b ha => inv_updateMachineStatusP ha) items (s, 0) h)
                | none => exact h
            | none =>
                cases data.energy with
                | some items =>
                    exact (foldl_preserve
                      (P := fun x : EngineState × Nat => TimerInv x.1)
                      (fun a b ha => inv_updateMachineStatusP ha) items (s, 0) h)
                | none => exact h

theorem inv_init (file : FileState) (diskOk : Bool) :
    TimerInv (MqttClientPairs.initState file diskOk) := by
  refine ⟨?_, ?_, ?_, ?_⟩
  · intro t ht
    simp [MqttClientPairs.initState] at ht
  · simp [MqttClientPairs.initState]
  · intro c
    simp [chanTimers, MqttClientPairs.initState]
  · intro c hc
    simp [MqttClientPairs.initState] at hc

theorem reachable_timerInv {s : EngineState} (h : MqttClientPairs.Reachable s) :
    TimerInv s := by
  induction h with
  | init file diskOk => exact inv_init file diskOk
  | msg s data now _ ih => exact inv_handleDeviceDataP ih
  | fire s t now _ htl ih => exact inv_fireTimer htl ih

/-- C6: in every reachable state of the pairs revision, each channel has
at most one live stop-debounce timer; a transition to Running leaves no
live timer on its channel (any outstanding one is cleared); and an
additional stop request while a timer is already outstanding arms
nothing — the live-timer arena is unchanged. -/
theorem c6_one_timer_per_channel (s : EngineState)
    (h : MqttClientPairs.Reachable s) :
    (∀ c, (chanTimers s c).length ≤ 1) ∧
    (∀ id now, chanTimers (MqttClientPairs._setMachineRunning s id true now) id = []) ∧
    (∀ id now, s.stopTimers id ≠ none →
      (MqttClientPairs._setMachineRunning s id false now).liveTimers = s.liveTimers) := by
  obtain ⟨h1, h2, h3, h4⟩ := reachable_timerInv h
  refine ⟨?_, ?_, ?_⟩
  · intro c
    have hlen := congrArg List.length (h3 c)
    rw [List.length_map] at hlen
    unfold chanTimers at hlen ⊢
    rw [hlen]
    cases s.stopTimers c <;> simp
  · intro id now
    cases hm : s.machines id with
    | none =>
        rw [MqttClientPairs._setMachineRunning_none hm]
        have hst : s.stopTimers id = none := by
          cases hstv : s.stopTimers id with
          | none => rfl
          | some tid =>
              have := h4 id (by rw [hstv]; rfl)
              rw [hm] at this
              simp at this
        have h3n : List.map Timer.tid (chanTimers s id) = [] := by
          rw [h3 id, hst]
          rfl
        exact List.map_eq_nil_iff.mp h3n
    | some m =>
        by_cases hr : m.isRunning = true
        · rw [MqttClientPairs._setMachineRunning_true_running hm hr]
          have hcl := filter_chan_of_cleared (h3 id)
          unfold chanTimers
          rw [clearStopTimer_liveTimers]
          exact hcl
        · have hr' : m.isRunning = false := by simpa using hr
          rw [MqttClientPairs._setMachineRunning_start hm hr' now]
          have hcl := filter_chan_of_cleared (h3 id)
          unfold chanTimers
          exact hcl
  · intro id now hne
    cases hm : s.machines id with
    | none => rw [MqttClientPairs._setMachineRunning_none hm]
    | some m =>
        have hsome : (s.stopTimers id).isSome = true := by
          cases hstv : s.stopTimers id with
          | none => exact absurd hstv hne
          | some tid => rfl
        rw [MqttClientPairs._setMachineRunning_false_timer hm hsome now]

theorem c6_one_timer_per_channel_witness :
    (∀ c, (chanTimers (MqttClientPairs.initState .missing true) c).length ≤ 1) ∧
    (∀ id now, chanTimers
      (MqttClientPairs._setMachineRunning (MqttClientPairs.initState .missing true)
        id true now) id = []) ∧
    (∀ id now, (MqttClientPairs.initState .missing true).stopTimers id ≠ none →
      (MqttClientPairs._setMachineRunning (MqttClientPairs.initState .missing true)
        id false now).liveTimers =
        (MqttClientPairs.initState .missing true).liveTimers) :=
  c6_one_timer_per_channel (MqttClientPairs.initState .missing true)
    (MqttClientPairs.Reachable.init .missing true)
